import Mathlib

/-!
Shallow embedding of the logistics core of the `crm_system` repository
(`src/crm/logistics.py`) and proofs about it.

Modelling conventions:
* Python floats stored in the data model (coordinates) are modelled as
  rationals `ℚ`, while all distance / time arithmetic is carried out over `ℝ`.
* Python truthiness on optional float fields (`None` and `0.0` are falsy, as
  in `order.latitude or order.client.latitude or start_lat`) is modelled
  explicitly by `pyOr` / `pyOrOpt` / `qTruthy`.
* External HTTP calls are modelled by fixed oracle fields in an environment
  record: `.error ()` models a raised network error, `.ok none` models a
  response that parses but lacks the expected `routes` / `features` entries,
  and `.ok (some _)` models a successful response.
* Django persistence is modelled as explicit record lists in `DBState`;
  `save()` on a fetched row is `saveOrder` (replace the row with the same id).
* A raised exception that the code does not catch is modelled by `Except`.
-/

namespace CRM

/-- A geographic coordinate pair (latitude, longitude), stored as Python
floats in the repository and modelled as rationals. -/
abbrev Loc := ℚ × ℚ

/-- Python truthiness of an optional float field: `None` and `0.0` are falsy. -/
def qTruthy : Option ℚ → Bool
  | none => false
  | some v => decide (v ≠ 0)

/-- Python `a or b` where `a` is an optional float and `b` a plain float
(e.g. `courier.current_latitude or 50.4501`). -/
def pyOr (a : Option ℚ) (b : ℚ) : ℚ :=
  match a with
  | none => b
  | some v => if v = 0 then b else v

/-- Python `a or b` on two optional floats
(e.g. `order.latitude or order.client.latitude`). -/
def pyOrOpt (a b : Option ℚ) : Option ℚ :=
  match a with
  | none => b
  | some v => if v = 0 then b else some v

/-- Python truthiness of an optional string: `None` and `""` are falsy
(e.g. `if self.api_key:`). -/
def pyStrTruthy : Option String → Bool
  | none => false
  | some s => decide (s ≠ "")

/-- The two-argument arctangent `math.atan2 y x`, modelled as the argument of
the complex number `x + y*I`. -/
noncomputable def atan2 (y x : ℝ) : ℝ := Complex.arg ⟨x, y⟩

/-- The conversion `math.radians`. -/
noncomputable def radians (x : ℝ) : ℝ := x * (Real.pi / 180)

/-- The function `GPSTracker.calculate_distance`: great-circle distance between two
coordinates by the Haversine formula, in kilometres. -/
noncomputable def calculate_distance (lat1 lon1 lat2 lon2 : ℝ) : ℝ :=
  let R : ℝ := 6371
  let lat1_rad := radians lat1
  let lat2_rad := radians lat2
  let delta_lat := radians (lat2 - lat1)
  let delta_lon := radians (lon2 - lon1)
  let a := Real.sin (delta_lat / 2) ^ 2 +
    Real.cos lat1_rad * Real.cos lat2_rad * Real.sin (delta_lon / 2) ^ 2
  let c := 2 * atan2 (Real.sqrt a) (Real.sqrt (1 - a))
  R * c

/-- `GPSTracker.calculate_distance` applied to two stored coordinate pairs. -/
noncomputable def locDistance (p q : Loc) : ℝ :=
  calculate_distance (p.1 : ℝ) (p.2 : ℝ) (q.1 : ℝ) (q.2 : ℝ)

/-- Raw summary block of an external routing response: metres and seconds,
as delivered by the provider (section 6 of the spec). -/
structure RouteSummaryResp where
  distance : ℝ
  duration : ℝ

/-- Result of `RouteService.get_route_summary`: kilometres, minutes, and the
path coordinates. -/
structure RouteSummary where
  distance : ℝ
  duration : ℝ
  coordinates : List Loc

/-- Environment of `RouteService`: the administrative switch, the configured
credential, and oracles for the four kinds of external requests the service
can make.  `.error ()` models a network error / raised exception, `.ok none`
a response without usable `routes` / `features` geometry, `.ok (some _)` a
successful parse. -/
structure RouteEnv where
  externalRoutingEnabled : Bool
  apiKey : Option String
  orsSummaryResp : Except Unit (Option RouteSummaryResp)
  osrmSummaryResp : Except Unit (Option RouteSummaryResp)
  orsRouteResp : Except Unit (Option (List Loc))
  osrmRouteResp : Except Unit (Option (List Loc))

/-- `RouteService._translate_profile_for_osrm`. -/
def translate_profile_for_osrm (profile : String) : String :=
  match profile with
  | "driving-car" => "driving"
  | "driving-hgv" => "driving"
  | "cycling-regular" => "cycling"
  | "foot-walking" => "walking"
  | _ => "driving"

/-- `RouteService._get_openroute_route`: the geometry returned by the primary
provider, or the input waypoints when the call fails or the response has no
`LineString` geometry. -/
def get_openroute_route (env : RouteEnv) (waypoints : List Loc)
    (_profile : String) : List Loc :=
  match env.orsRouteResp with
  | .error _ => waypoints
  | .ok none => waypoints
  | .ok (some cs) => cs

/-- `RouteService._get_osrm_route`: as `get_openroute_route`, for the
secondary provider. -/
def get_osrm_route (env : RouteEnv) (waypoints : List Loc)
    (_profile : String) : List Loc :=
  match env.osrmRouteResp with
  | .error _ => waypoints
  | .ok none => waypoints
  | .ok (some cs) => cs

/-- `RouteService.get_route_coordinates`. -/
def get_route_coordinates (env : RouteEnv) (waypoints : List Loc)
    (profile : String) : List Loc :=
  if waypoints.length < 2 then waypoints
  else if env.externalRoutingEnabled = false then waypoints
  else if pyStrTruthy env.apiKey then get_openroute_route env waypoints profile
  else get_osrm_route env waypoints profile

/-- The summed pairwise great-circle distance over consecutive waypoints, as
accumulated by the loop of `RouteService._calculate_straight_line_summary`. -/
noncomputable def straight_line_distance : List Loc → ℝ
  | [] => 0
  | [_] => 0
  | p :: q :: rest => locDistance p q + straight_line_distance (q :: rest)

/-- `RouteService._calculate_straight_line_summary`: the offline fallback. -/
noncomputable def calculate_straight_line_summary (waypoints : List Loc) :
    RouteSummary :=
  { distance := straight_line_distance waypoints
    duration := straight_line_distance waypoints / 25 * 60
    coordinates := waypoints }

/-- `RouteService._get_openroute_summary`. -/
noncomputable def get_openroute_summary (env : RouteEnv) (waypoints : List Loc)
    (profile : String) : RouteSummary :=
  match env.orsSummaryResp with
  | .error _ => calculate_straight_line_summary waypoints
  | .ok none => calculate_straight_line_summary waypoints
  | .ok (some r) =>
    { distance := r.distance / 1000
      duration := r.duration / 60
      coordinates := get_openroute_route env waypoints profile }

/-- `RouteService._get_osrm_summary`. -/
noncomputable def get_osrm_summary (env : RouteEnv) (waypoints : List Loc)
    (profile : String) : RouteSummary :=
  match env.osrmSummaryResp with
  | .error _ => calculate_straight_line_summary waypoints
  | .ok none => calculate_straight_line_summary waypoints
  | .ok (some r) =>
    { distance := r.distance / 1000
      duration := r.duration / 60
      coordinates := get_osrm_route env waypoints profile }

/-- `RouteService.get_route_summary`. -/
noncomputable def get_route_summary (env : RouteEnv) (waypoints : List Loc)
    (profile : String) : RouteSummary :=
  if env.externalRoutingEnabled = false then
    calculate_straight_line_summary waypoints
  else if pyStrTruthy env.apiKey then get_openroute_summary env waypoints profile
  else get_osrm_summary env waypoints profile

/-- A client record: only the coordinate fields are read by the core. -/
structure Client where
  latitude : Option ℚ
  longitude : Option ℚ
deriving DecidableEq

/-- A courier record, with the fields the logistics core reads. -/
structure Courier where
  id : ℕ
  name : String
  available : Bool
  vehicle_type : String
  current_latitude : Option ℚ
  current_longitude : Option ℚ
deriving DecidableEq

/-- An order record, with the fields the logistics core reads and writes.
`courier` holds the id of the assigned courier (`None` when unassigned);
`created_date` abstracts `created_at__date`; `estimated_delivery_time` is an
absolute instant in minutes. -/
structure Order where
  id : ℕ
  client : Client
  address : String
  latitude : Option ℚ
  longitude : Option ℚ
  status : String
  priority : String
  courier : Option ℕ
  estimated_delivery_time : Option ℝ
  created_date : ℕ

instance : Inhabited Client := ⟨⟨none, none⟩⟩

instance : Inhabited Order :=
  ⟨⟨0, default, "", none, none, "new", "normal", none, none, 0⟩⟩

/-- Python `min(xs, key=k)` over the nonempty list `x :: xs`: the fold keeps
the first element whose key is strictly smaller than the running best, so the
first minimum encountered in iteration order wins. -/
noncomputable def pyMin (key : ℕ → ℝ) (x : ℕ) (xs : List ℕ) : ℕ :=
  xs.foldl (fun best i => if key i < key best then i else best) x

/-- Distance key used by the nearest-neighbor selection in
`RouteOptimizer.optimize_route`: the great-circle distance from the current
tour position to location `j` of the location list. -/
noncomputable def nnKey (locs : List Loc) (cur j : ℕ) : ℝ :=
  locDistance (locs.getD cur (0, 0)) (locs.getD j (0, 0))

/-- The nearest-neighbor loop of `RouteOptimizer.optimize_route`, with
explicit fuel (the loop runs while `unvisited` is nonempty; each step removes
the chosen member, so `unvisited.length` steps suffice). -/
noncomputable def nnTourAux (locs : List Loc) : ℕ → ℕ → List ℕ → List ℕ
  | 0, _, _ => []
  | _, _, [] => []
  | fuel + 1, cur, i :: rest =>
    let nearest := pyMin (nnKey locs cur) i rest
    nearest :: nnTourAux locs fuel nearest ((i :: rest).erase nearest)

/-- The sequence of location indices visited by the nearest-neighbor loop,
starting from position `cur` with `unvisited` still to visit. -/
noncomputable def nnTour (locs : List Loc) (cur : ℕ) (unvisited : List ℕ) :
    List ℕ :=
  nnTourAux locs unvisited.length cur unvisited

/-- Starting point of a route: the courier's current location, with the
default depot (Kyiv) substituted componentwise for missing coordinates
(`courier.current_latitude or 50.4501`). -/
def startLocation (courier : Courier) : Loc :=
  (pyOr courier.current_latitude 50.4501, pyOr courier.current_longitude 30.5234)

/-- Stop location of one order: own coordinates, else the client's, else the
starting location, componentwise with Python truthiness
(`order.latitude or order.client.latitude or start_lat`). -/
def stopLocation (start : Loc) (order : Order) : Loc :=
  (pyOr order.latitude (pyOr order.client.latitude start.1),
   pyOr order.longitude (pyOr order.client.longitude start.2))

/-- The location list `[start, order_1_loc, ..., order_n_loc]` built by
`RouteOptimizer.optimize_route`. -/
def routeLocations (courier : Courier) (orders : List Order) : List Loc :=
  startLocation courier :: orders.map (stopLocation (startLocation courier))

/-- The `profile_map` lookup of `RouteOptimizer.optimize_route`
(`profile_map.get(courier.vehicle_type, 'driving-car')`). -/
def profile_map (vehicle_type : String) : String :=
  match vehicle_type with
  | "car" => "driving-car"
  | "van" => "driving-hgv"
  | "motorcycle" => "driving-car"
  | "bike" => "cycling-regular"
  | "bicycle" => "cycling-regular"
  | "foot" => "foot-walking"
  | _ => "driving-car"

/-- One entry of the optimized order sequence returned by
`RouteOptimizer.optimize_route`. -/
structure RouteEntry where
  order : Order
  sequence : ℕ
  location : Loc

/-- The dictionary returned by `RouteOptimizer.optimize_route`.
`route_coordinates := none` models the `'route_coordinates'` key being absent
from the dictionary (as in the early return for an empty order list). -/
structure OptimizeResult where
  route : List RouteEntry
  total_distance : ℝ
  estimated_duration : ℝ
  route_coordinates : Option (List Loc)

/-- `RouteOptimizer.optimize_route`. -/
noncomputable def optimize_route (env : RouteEnv) (courier : Courier)
    (orders : List Order) : OptimizeResult :=
  if orders.isEmpty then
    { route := [], total_distance := 0, estimated_duration := 0
      route_coordinates := none }
  else
    let locations := routeLocations courier orders
    let tour := nnTour locations 0 (List.range' 1 orders.length)
    let fullRoute := 0 :: tour
    let profile := profile_map courier.vehicle_type
    let route_summary :=
      get_route_summary env (fullRoute.map (fun idx => locations.getD idx (0, 0)))
        profile
    let travel_time := route_summary.duration
    let service_time : ℝ := orders.length * 15
    let total_duration_minutes := travel_time + service_time
    let optimized_orders := ((List.range' 1 tour.length).zip tour).map fun p =>
      { order := orders.getD (p.2 - 1) default
        sequence := p.1
        location := locations.getD p.2 (0, 0) : RouteEntry }
    { route := optimized_orders
      total_distance := route_summary.distance
      estimated_duration := total_duration_minutes
      route_coordinates := some route_summary.coordinates }

/-- A persisted `DeliveryRoute` row (the fields the claims are about). -/
structure DeliveryRouteRec where
  courier : ℕ
  name : String
  total_distance : ℝ
  estimated_duration : ℝ

/-- A persisted `RouteOrder` row: one stop of a route. -/
structure RouteOrderRec where
  order : Order
  sequence : ℕ

/-- `RouteOptimizer.create_delivery_route`.  `now` is the timestamp string
used for the auto-generated name.  Reading the absent
`'route_coordinates'` key of the empty-order optimization result raises a
`KeyError`, modelled as `.error`; nothing is persisted in that case. -/
noncomputable def create_delivery_route (env : RouteEnv) (now : String)
    (courier : Courier) (orders : List Order) (name? : Option String) :
    Except String (DeliveryRouteRec × List RouteOrderRec) :=
  let r := optimize_route env courier orders
  let name :=
    if pyStrTruthy name? then name?.getD ""
    else "Route " ++ now ++ " - " ++ courier.name
  match r.route_coordinates with
  | none => .error "KeyError: route_coordinates"
  | some _ =>
    .ok ({ courier := courier.id, name := name
           total_distance := r.total_distance
           estimated_duration := r.estimated_duration },
         r.route.map fun e => { order := e.order, sequence := e.sequence })

/-- The `vehicle_speeds` dictionary of `DeliveryTimeCalculator` (km/h). -/
def vehicle_speeds : List (String × ℚ) :=
  [("bike", 15), ("motorcycle", 35), ("car", 40), ("van", 35)]

/-- The `priority_factors` dictionary of
`DeliveryTimeCalculator.calculate_delivery_time`. -/
def priority_factors : List (String × ℚ) :=
  [("low", 1.0), ("normal", 1.0), ("high", 0.8), ("urgent", 0.6)]

/-- Python `d.get(k, default)` on a string-keyed dictionary of floats. -/
def dictGetQ (d : List (String × ℚ)) (k : String) (dfl : ℚ) : ℚ :=
  match d.find? (fun p => p.1 == k) with
  | some p => p.2
  | none => dfl

/-- `DeliveryTimeCalculator._get_traffic_factor` (the latitude/longitude
parameters are accepted but unused by the code). -/
def get_traffic_factor (_latitude _longitude : ℚ) (hour day_of_week : ℕ) : ℚ :=
  if day_of_week < 5 then
    if (7 ≤ hour ∧ hour ≤ 9) ∨ (17 ≤ hour ∧ hour ≤ 19) then 1.5
    else if 10 ≤ hour ∧ hour ≤ 16 then 1.2
    else 1.0
  else
    if 12 ≤ hour ∧ hour ≤ 18 then 1.3
    else 1.0

/-- The travel-time pipeline of `DeliveryTimeCalculator.calculate_delivery_time`
after the distance has been computed: base travel time from the vehicle-speed
table, scaled by the traffic factor and the priority factor.  Minutes. -/
noncomputable def final_travel_time (vehicle_type : String) (distance : ℝ)
    (lat lon : ℚ) (hour day_of_week : ℕ) (priority : String) : ℝ :=
  let vehicle_speed := dictGetQ vehicle_speeds vehicle_type 25
  let base_travel_time := distance / (vehicle_speed : ℝ) * 60
  let traffic_factor := get_traffic_factor lat lon hour day_of_week
  let adjusted_travel_time := base_travel_time * (traffic_factor : ℝ)
  let priority_factor := dictGetQ priority_factors priority 1.0
  adjusted_travel_time * (priority_factor : ℝ)

/-- Wall-clock context of a run: the values the code reads from
`timezone.now()`.  `now` is the current instant in minutes on an absolute
scale, `today` the current date. -/
structure TimeCtx where
  hour : ℕ
  day_of_week : ℕ
  now : ℝ
  today : ℕ

/-- `DeliveryTimeCalculator.calculate_delivery_time`, in minutes.  The
`courier?` argument is the courier resolved by the code
(`courier or order.courier`); with no courier the fixed fallback of
30 minutes preparation plus one hour applies. -/
noncomputable def calculate_delivery_time (ctx : TimeCtx)
    (courier? : Option Courier) (order : Order) : ℝ :=
  match courier? with
  | none => 30 + 60
  | some courier =>
    let courier_lat := pyOr courier.current_latitude 50.4501
    let courier_lon := pyOr courier.current_longitude 30.5234
    let order_lat := pyOr order.latitude (pyOr order.client.latitude courier_lat)
    let order_lon := pyOr order.longitude (pyOr order.client.longitude courier_lon)
    let distance := calculate_distance (courier_lat : ℝ) (courier_lon : ℝ)
      (order_lat : ℝ) (order_lon : ℝ)
    30 + final_travel_time courier.vehicle_type distance order_lat order_lon
      ctx.hour ctx.day_of_week order.priority

/-- The persisted record collections the logistics manager reads and writes. -/
structure DBState where
  orders : List Order
  couriers : List Courier

/-- `save()` on an order fetched from the database: replace the stored rows
carrying this id. -/
def saveOrder (state : DBState) (o : Order) : DBState :=
  { state with orders := state.orders.map fun x => if x.id = o.id then o else x }

/-- Environment of `LogisticsManager`: the routing environment, the geocoder
oracle (`(None, None)` on failure), the wall clock, and the timestamp string
used in auto-generated route names. -/
structure Env where
  route : RouteEnv
  geocode : String → Option ℚ × Option ℚ
  time : TimeCtx
  nowLabel : String

/-- Outcome of the coordinate-resolution block at the top of
`LogisticsManager.assign_optimal_courier`: the final `order_lat` / `order_lon`
values, the (possibly geocode-updated) order, and whether the order was
saved. -/
structure GeoResult where
  lat : Option ℚ
  lon : Option ℚ
  order : Order
  saved : Bool

/-- The coordinate-resolution block of
`LogisticsManager.assign_optimal_courier`: resolve `order → client` with
Python truthiness, geocode the address when unresolved, and persist a
successful geocode back onto the order. -/
def geocodeStep (env : Env) (order : Order) : GeoResult :=
  let lat0 := pyOrOpt order.latitude order.client.latitude
  let lon0 := pyOrOpt order.longitude order.client.longitude
  if !(qTruthy lat0 && qTruthy lon0) then
    let g := env.geocode order.address
    if qTruthy g.1 && qTruthy g.2 then
      { lat := g.1, lon := g.2
        order := { order with latitude := g.1, longitude := g.2 }, saved := true }
    else
      { lat := g.1, lon := g.2, order := order, saved := false }
  else
    { lat := lat0, lon := lon0, order := order, saved := false }

/-- Distance from a courier's current position to the resolved order
location, as computed inside the selection loop of
`assign_optimal_courier`. -/
noncomputable def courierDist (courier : Courier) (order_lat order_lon : ℚ) : ℝ :=
  calculate_distance (↑(courier.current_latitude.getD 0))
    (↑(courier.current_longitude.getD 0)) (order_lat : ℝ) (order_lon : ℝ)

/-- Whether the selection loop considers a courier's position known:
`if courier.current_latitude and courier.current_longitude`. -/
def posKnown (courier : Courier) : Bool :=
  qTruthy courier.current_latitude && qTruthy courier.current_longitude

/-- One iteration of the nearest-courier selection loop of
`assign_optimal_courier`: the accumulator is the running best courier with
its `min_distance` (`none` models the initial `float('inf')`); couriers
without a known position are skipped; a strictly smaller distance replaces
the best, so the first minimum wins. -/
noncomputable def bestStep (order_lat order_lon : ℚ)
    (acc : Option (Courier × ℝ)) (courier : Courier) : Option (Courier × ℝ) :=
  if posKnown courier then
    let distance := courierDist courier order_lat order_lon
    match acc with
    | none => some (courier, distance)
    | some (_, min_distance) =>
      if distance < min_distance then some (courier, distance) else acc
  else acc

/-- The nearest-courier selection loop of `assign_optimal_courier`. -/
noncomputable def bestCourier (couriers : List Courier)
    (order_lat order_lon : ℚ) : Option Courier :=
  (couriers.foldl (bestStep order_lat order_lon) none).map Prod.fst

/-- `LogisticsManager.assign_optimal_courier`.  Returns the chosen courier (if
any), the possibly geocode-updated order object, and the database state after
any geocode save. -/
noncomputable def assign_optimal_courier (env : Env) (state : DBState)
    (order : Order) : Option Courier × Order × DBState :=
  let available_couriers := state.couriers.filter (·.available)
  if available_couriers.isEmpty then (none, order, state)
  else
    let g := geocodeStep env order
    let st1 := if g.saved then saveOrder state g.order else state
    if !(qTruthy g.lat) || !(qTruthy g.lon) then
      (available_couriers.head?, g.order, st1)
    else
      match bestCourier available_couriers (g.lat.getD 0) (g.lon.getD 0) with
      | some c => (some c, g.order, st1)
      | none => (available_couriers.head?, g.order, st1)

/-- Append an order to the bucket of its courier id, creating the bucket at
the end on first use (Python dict insertion order). -/
def insertGroup : List (ℕ × List Order) → ℕ → Order → List (ℕ × List Order)
  | [], cid, o => [(cid, [o])]
  | (k, os) :: rest, cid, o =>
    if k = cid then (k, os ++ [o]) :: rest
    else (k, os) :: insertGroup rest cid o

/-- `LogisticsManager._group_orders_for_routing`: group the pending orders by
`order.courier or assign_optimal_courier(order)`; orders that resolve to no
courier are dropped.  Threads the database state through the geocode saves
performed by `assign_optimal_courier`. -/
noncomputable def group_orders_for_routing (env : Env) :
    List Order → List (ℕ × List Order) → DBState →
    List (ℕ × List Order) × DBState
  | [], groups, st => (groups, st)
  | o :: os, groups, st =>
    match o.courier with
    | some cid => group_orders_for_routing env os (insertGroup groups cid o) st
    | none =>
      match assign_optimal_courier env st o with
      | (some c, o1, st1) =>
        group_orders_for_routing env os (insertGroup groups c.id o1) st1
      | (none, _, st1) => group_orders_for_routing env os groups st1

/-- The per-group update of `create_optimized_routes_for_day`: set the
courier and the `assigned` status, refresh the delivery estimate
(`update_delivery_estimates` stores `now + calculate_delivery_time`), and
save. -/
noncomputable def updateGroupOrder (env : Env) (courier : Courier)
    (st : DBState) (o : Order) : DBState :=
  let o1 := { o with courier := some courier.id, status := "assigned" }
  let est := env.time.now + calculate_delivery_time env.time (some courier) o1
  let o2 := { o1 with estimated_delivery_time := some est }
  saveOrder st o2

/-- The loop over `grouped_orders.items()` in
`create_optimized_routes_for_day`: fetch the group's courier with
`available=True` (skipping the group when the fetch raises
`Courier.DoesNotExist`), create the delivery route, then update every order
of the group.  Any other exception propagates. -/
noncomputable def processGroups (env : Env) :
    List (ℕ × List Order) → List DeliveryRouteRec → DBState →
    Except String (List DeliveryRouteRec × DBState)
  | [], routes, st => .ok (routes, st)
  | g :: gs, routes, st =>
    match st.couriers.find? (fun c => c.id == g.1 && c.available) with
    | none => processGroups env gs routes st
    | some courier =>
      match create_delivery_route env.route env.nowLabel courier g.2 none with
      | .error e => .error e
      | .ok (route, _) =>
        let st1 := g.2.foldl (updateGroupOrder env courier) st
        processGroups env gs (routes ++ [route]) st1

/-- `LogisticsManager.create_optimized_routes_for_day`. -/
noncomputable def create_optimized_routes_for_day (env : Env)
    (date? : Option ℕ) (state : DBState) :
    Except String (List DeliveryRouteRec × DBState) :=
  let date := match date? with | none => env.time.today | some d => d
  let pending_orders := state.orders.filter fun o =>
    (o.status == "new" || o.status == "assigned") && o.created_date == date
  let gr := group_orders_for_routing env pending_orders [] state
  processGroups env gr.1 [] gr.2

/-! Definitions written from the specification text (section 4.5), used to
compare the code's lookup tables against the spec's stated tables. -/

/-- Vehicle speed table as stated by the spec: bike 15, motorcycle 35,
car 40, van 35 km/h; unknown category defaults to 25. -/
def spec_vehicle_speed (v : String) : ℚ :=
  if v = "bike" then 15
  else if v = "motorcycle" then 35
  else if v = "car" then 40
  else if v = "van" then 35
  else 25

/-- Priority factor table as stated by the spec: low 1.0, normal 1.0,
high 0.8, urgent 0.6; an unknown priority defaults to 1.0. -/
def spec_priority_factor (p : String) : ℚ :=
  if p = "low" then 1
  else if p = "normal" then 1
  else if p = "high" then 0.8
  else if p = "urgent" then 0.6
  else 1

/-- Traffic factor table as stated by the spec: weekday rush hours
([7,9] and [17,19]) 1.5, weekday business hours [10,16] 1.2, weekend busy
hours [12,18] 1.3, otherwise 1.0. -/
def spec_traffic_factor (hour day_of_week : ℕ) : ℚ :=
  if day_of_week < 5 then
    if (7 ≤ hour ∧ hour ≤ 9) ∨ (17 ≤ hour ∧ hour ≤ 19) then 1.5
    else if 10 ≤ hour ∧ hour ≤ 16 then 1.2
    else 1.0
  else if 12 ≤ hour ∧ hour ≤ 18 then 1.3
  else 1.0

/-- A state contains a re-routable order for a date: a stored order of that
date already in status `assigned` and attached to an available courier of
`C`.  Such an order is still eligible for `create_optimized_routes_for_day`,
which is why a second run routes it again. -/
def reroutable (C : List Courier) (date : ℕ) (st : DBState) : Prop :=
  ∃ x ∈ st.orders, x.status = "assigned" ∧ x.created_date = date ∧
    ∃ c ∈ C, c.available = true ∧ x.courier = some c.id

/-! Concrete fixtures used by witnesses and counterexamples. -/

/-- Routing environment with external routing administratively disabled. -/
def envDisabled : RouteEnv :=
  { externalRoutingEnabled := false, apiKey := none
    orsSummaryResp := .ok none, osrmSummaryResp := .ok none
    orsRouteResp := .ok none, osrmRouteResp := .ok none }

/-- Routing environment with routing enabled, no credential, and a secondary
provider that answers the summary request successfully (5000 m, 600 s). -/
def envOsrmOk : RouteEnv :=
  { externalRoutingEnabled := true, apiKey := none
    orsSummaryResp := .ok none, osrmSummaryResp := .ok (some ⟨5000, 600⟩)
    orsRouteResp := .ok none, osrmRouteResp := .ok (some [(1, 1)]) }

/-- A weekday-rush-hour wall clock at instant 0 on day 0. -/
def timeCtx0 : TimeCtx := { hour := 8, day_of_week := 1, now := 0, today := 0 }

/-- Full environment with routing disabled and a failing geocoder. -/
def env3 : Env :=
  { route := envDisabled, geocode := fun _ => (none, none)
    time := timeCtx0, nowLabel := "T" }

/-- A client with no stored coordinates. -/
def client0 : Client := ⟨none, none⟩

/-- An available courier (id 1) positioned at (50, 30). -/
def courier3 : Courier := ⟨1, "C", true, "car", some 50, some 30⟩

/-- An order already assigned to courier 1, located at the courier's own
position, created on day 0. -/
def order3 : Order :=
  ⟨1, client0, "addr", some 50, some 30, "assigned", "normal", some 1, none, 0⟩

/-- Database with just `order3` and `courier3`. -/
def state3 : DBState := ⟨[order3], [courier3]⟩

/-- `order3` after one optimization run: its delivery estimate is set (the
distance is zero, so the estimate is the 30-minute preparation time). -/
noncomputable def order3est : Order :=
  { order3 with estimated_delivery_time := some 30 }

/-- `state3` after one optimization run. -/
noncomputable def state3run : DBState := ⟨[order3est], [courier3]⟩

/-- The route record each run over `state3` creates: zero distance, 15
minutes of per-stop service time. -/
def route3 : DeliveryRouteRec := ⟨1, "Route T - C", 0, 15⟩

/-- Locations fixture for the nearest-neighbor witness. -/
def locsW : List Loc := [(0, 0), (1, 1), (2, 2)]

/-- An unavailable courier with id 7. -/
def courier10 : Courier := ⟨7, "U", false, "car", none, none⟩

/-- An order pre-assigned to the unavailable courier 7, created on day 0. -/
def order10 : Order :=
  ⟨3, client0, "y", some 50, some 30, "new", "normal", some 7, none, 0⟩

/-- Database with just `order10` and the unavailable `courier10`. -/
def state10 : DBState := ⟨[order10], [courier10]⟩

/-- An available courier whose stored latitude is the falsy float `0.0`. -/
def courier8 : Courier := ⟨9, "Z", true, "car", some 0, some 30⟩

/-- Two available couriers with known positions. -/
def courier7a : Courier := ⟨1, "A", true, "car", some 50, some 30⟩

/-- Second available courier, further from `order7`. -/
def courier7b : Courier := ⟨2, "B", true, "car", some 52, some 30⟩

/-- An unassigned order with stored coordinates. -/
def order7 : Order :=
  ⟨5, client0, "x", some 51, some 31, "new", "normal", none, none, 0⟩

/-- Database for the courier-assignment witness. -/
def state7 : DBState := ⟨[order7], [courier7a, courier7b]⟩

/-- Courier fixture for the stop-sequence witness. -/
def courier6 : Courier := ⟨4, "S", true, "car", some 50, some 30⟩

/-- First order of the stop-sequence witness. -/
def order6a : Order :=
  ⟨11, client0, "a", some 50, some 31, "new", "normal", none, none, 0⟩

/-- Second order of the stop-sequence witness. -/
def order6b : Order :=
  ⟨12, client0, "b", some 50, some 32, "new", "normal", none, none, 0⟩

/-! Theorems. -/

/-- The argument of a complex number with nonnegative imaginary part is
nonnegative; hence `atan2 y x` is nonnegative for `y ≥ 0`. -/
theorem atan2_nonneg (y x : ℝ) (hy : 0 ≤ y) : 0 ≤ atan2 y x :=
  Complex.arg_nonneg_iff.mpr hy

/-- The Haversine distance is nonnegative on all real inputs. -/
theorem calculate_distance_nonneg (lat1 lon1 lat2 lon2 : ℝ) :
    0 ≤ calculate_distance lat1 lon1 lat2 lon2 := by
  simp only [calculate_distance]
  exact mul_nonneg (by norm_num)
    (mul_nonneg (by norm_num) (atan2_nonneg _ _ (Real.sqrt_nonneg _)))

/-- The Haversine distance from a point to itself is zero. -/
theorem calculate_distance_self (lat lon : ℝ) :
    calculate_distance lat lon lat lon = 0 := by
  have h1 : (⟨1, (0 : ℝ)⟩ : ℂ) = 1 := by
    apply Complex.ext <;> simp
  simp only [calculate_distance, atan2, radians, sub_self, zero_mul, zero_div,
    Real.sin_zero, ne_eq, OfNat.ofNat_ne_zero, not_false_eq_true, zero_pow,
    mul_zero, add_zero, zero_add, Real.sqrt_zero, sub_zero, Real.sqrt_one]
  rw [h1, Complex.arg_one]
  ring

/-- The summed pairwise distance of the straight-line fallback is
nonnegative. -/
theorem straight_line_distance_nonneg : ∀ l : List Loc,
    0 ≤ straight_line_distance l
  | [] => le_refl 0
  | [_] => le_refl 0
  | p :: q :: rest => by
    have ih := straight_line_distance_nonneg (q :: rest)
    simp only [straight_line_distance]
    exact add_nonneg (calculate_distance_nonneg _ _ _ _) ih

/-- C1: `get_route_summary` is a total function (it never raises); its result
always has nonnegative distance and duration, given that successful provider
responses carry nonnegative raw distance/duration (the provider contract of
spec section 6); and whenever external routing is administratively disabled,
or no credential is configured and the secondary call fails, or the
credentialed primary call fails, the result is exactly the straight-line
fallback: distance the summed pairwise great-circle distance over consecutive
waypoints, duration `distance / 25 * 60` minutes, coordinates the input
waypoints. -/
theorem get_route_summary_spec (env : RouteEnv) (waypoints : List Loc)
    (profile : String)
    (hors : ∀ r, env.orsSummaryResp = .ok (some r) →
      0 ≤ r.distance ∧ 0 ≤ r.duration)
    (hosrm : ∀ r, env.osrmSummaryResp = .ok (some r) →
      0 ≤ r.distance ∧ 0 ≤ r.duration) :
    (0 ≤ (get_route_summary env waypoints profile).distance ∧
      0 ≤ (get_route_summary env waypoints profile).duration) ∧
    (env.externalRoutingEnabled = false →
      get_route_summary env waypoints profile =
        calculate_straight_line_summary waypoints) ∧
    (pyStrTruthy env.apiKey = false →
      (env.osrmSummaryResp = .error () ∨ env.osrmSummaryResp = .ok none) →
      get_route_summary env waypoints profile =
        calculate_straight_line_summary waypoints) ∧
    (pyStrTruthy env.apiKey = true →
      (env.orsSummaryResp = .error () ∨ env.orsSummaryResp = .ok none) →
      get_route_summary env waypoints profile =
        calculate_straight_line_summary waypoints) ∧
    (calculate_straight_line_summary waypoints).distance =
      straight_line_distance waypoints ∧
    (calculate_straight_line_summary waypoints).duration =
      straight_line_distance waypoints / 25 * 60 ∧
    (calculate_straight_line_summary waypoints).coordinates = waypoints := by
  have hsl : 0 ≤ (calculate_straight_line_summary waypoints).distance ∧
      0 ≤ (calculate_straight_line_summary waypoints).duration := by
    constructor
    · exact straight_line_distance_nonneg waypoints
    · have := straight_line_distance_nonneg waypoints
      simp only [calculate_straight_line_summary]
      positivity
  refine ⟨?_, ?_, ?_, ?_, rfl, rfl, rfl⟩
  · cases he : env.externalRoutingEnabled with
    | false => simpa [get_route_summary, he] using hsl
    | true =>
      cases hk : pyStrTruthy env.apiKey with
      | true =>
        cases hresp : env.orsSummaryResp with
        | error e => simpa [get_route_summary, get_openroute_summary, he, hk,
            hresp] using hsl
        | ok v =>
          cases v with
          | none => simpa [get_route_summary, get_openroute_summary, he, hk,
              hresp] using hsl
          | some r =>
            have hr := hors r hresp
            simp only [get_route_summary, get_openroute_summary, he, hk, hresp]
            exact ⟨div_nonneg hr.1 (by norm_num), div_nonneg hr.2 (by norm_num)⟩
      | false =>
        cases hresp : env.osrmSummaryResp with
        | error e => simpa [get_route_summary, get_osrm_summary, he, hk,
            hresp] using hsl
        | ok v =>
          cases v with
          | none => simpa [get_route_summary, get_osrm_summary, he, hk,
              hresp] using hsl
          | some r =>
            have hr := hosrm r hresp
            simp only [get_route_summary, get_osrm_summary, he, hk, hresp]
            exact ⟨div_nonneg hr.1 (by norm_num), div_nonneg hr.2 (by norm_num)⟩
  · intro he
    simp [get_route_summary, he]
  · intro hk hresp
    cases he : env.externalRoutingEnabled with
    | false => simp [get_route_summary, he]
    | true =>
      rcases hresp with h | h <;>
        simp [get_route_summary, get_osrm_summary, he, hk, h]
  · intro hk hresp
    cases he : env.externalRoutingEnabled with
    | false => simp [get_route_summary, he]
    | true =>
      rcases hresp with h | h <;>
        simp [get_route_summary, get_openroute_summary, he, hk, h]

/-- Witness for C1 at a concrete disabled environment and singleton waypoint
list. -/
theorem get_route_summary_spec_witness :
    (0 ≤ (get_route_summary envDisabled [((50 : ℚ), (30 : ℚ))]
      "driving-car").distance) ∧
    get_route_summary envDisabled [((50 : ℚ), (30 : ℚ))] "driving-car" =
      calculate_straight_line_summary [((50 : ℚ), (30 : ℚ))] := by
  have h := get_route_summary_spec envDisabled [((50 : ℚ), (30 : ℚ))]
    "driving-car" (fun r hr => by simp [envDisabled] at hr)
    (fun r hr => by simp [envDisabled] at hr)
  exact ⟨h.1.1, h.2.1 rfl⟩

/-- The straight-line fallback over fewer than two waypoints sums no pairs. -/
theorem straight_line_distance_short (l : List Loc) (h : l.length < 2) :
    straight_line_distance l = 0 := by
  match l with
  | [] => rfl
  | [_] => rfl
  | _ :: _ :: _ =>
    simp only [List.length_cons] at h
    omega

/-- Counterexample to C9 as stated: on a single waypoint with routing
enabled, no credential, and a secondary provider that answers successfully,
`get_route_summary` returns the provider's metrics (5 km), not zero — the
summary operation has no fewer-than-2-waypoints short-circuit and does
consult the external provider. -/
theorem get_route_summary_short_counterexample :
    (get_route_summary envOsrmOk [((0 : ℚ), (0 : ℚ))] "driving-car").distance
      ≠ 0 := by
  simp only [get_route_summary, envOsrmOk, pyStrTruthy, get_osrm_summary,
    get_osrm_route]
  norm_num

/-- C9 (amended): with fewer than 2 waypoints the path operation returns the
input unchanged without consulting any provider; the summary operation has no
such short-circuit, but whenever external routing is disabled or the
consulted provider call fails it returns zero metrics with the input
waypoints as coordinates (the straight-line fallback sums no pairs). -/
theorem short_waypoints_spec (env : RouteEnv) (waypoints : List Loc)
    (profile : String) (h : waypoints.length < 2) :
    get_route_coordinates env waypoints profile = waypoints ∧
    (env.externalRoutingEnabled = false →
      get_route_summary env waypoints profile = ⟨0, 0, waypoints⟩) ∧
    (pyStrTruthy env.apiKey = false →
      (env.osrmSummaryResp = .error () ∨ env.osrmSummaryResp = .ok none) →
      get_route_summary env waypoints profile = ⟨0, 0, waypoints⟩) ∧
    (pyStrTruthy env.apiKey = true →
      (env.orsSummaryResp = .error () ∨ env.orsSummaryResp = .ok none) →
      get_route_summary env waypoints profile = ⟨0, 0, waypoints⟩) := by
  have hz : calculate_straight_line_summary waypoints = ⟨0, 0, waypoints⟩ := by
    simp [calculate_straight_line_summary, straight_line_distance_short _ h]
  refine ⟨by simp [get_route_coordinates, h], ?_, ?_, ?_⟩
  · intro he
    simp [get_route_summary, he, hz]
  · intro hk hresp
    cases he : env.externalRoutingEnabled with
    | false => simp [get_route_summary, he, hz]
    | true =>
      rcases hresp with h1 | h1 <;>
        simp [get_route_summary, get_osrm_summary, he, hk, h1, hz]
  · intro hk hresp
    cases he : env.externalRoutingEnabled with
    | false => simp [get_route_summary, he, hz]
    | true =>
      rcases hresp with h1 | h1 <;>
        simp [get_route_summary, get_openroute_summary, he, hk, h1, hz]

/-- Witness for C9 (amended) at a singleton waypoint list. -/
theorem short_waypoints_spec_witness :
    get_route_coordinates envDisabled [((50 : ℚ), (30 : ℚ))] "driving-car" =
      [((50 : ℚ), (30 : ℚ))] ∧
    get_route_summary envDisabled [((50 : ℚ), (30 : ℚ))] "driving-car" =
      ⟨0, 0, [((50 : ℚ), (30 : ℚ))]⟩ := by
  have h := short_waypoints_spec envDisabled [((50 : ℚ), (30 : ℚ))]
    "driving-car" (by simp)
  exact ⟨h.1, h.2.1 rfl⟩

/-- C2 (code bug): on an empty order list, `optimize_route` returns the
zero-metric result whose dictionary lacks the `route_coordinates` key, and
`create_delivery_route` then raises `KeyError: 'route_coordinates'` while
building the serializable payload — before any Route or Route Stop row is
created — instead of returning a zero-metric empty result. -/
theorem create_delivery_route_empty (env : RouteEnv) (now : String)
    (courier : Courier) (name? : Option String) :
    optimize_route env courier [] =
      { route := [], total_distance := 0, estimated_duration := 0
        route_coordinates := none } ∧
    create_delivery_route env now courier [] name? =
      .error "KeyError: route_coordinates" := by
  exact ⟨rfl, rfl⟩

/-- Python `min` with a key: the result splits the list into a prefix of
strictly larger keys, the chosen element, and a suffix — so the first minimum
in iteration order wins — and its key is a lower bound for the whole list. -/
theorem pyMin_spec (key : ℕ → ℝ) : ∀ (xs : List ℕ) (x : ℕ),
    (∃ l1 l2, x :: xs = l1 ++ pyMin key x xs :: l2 ∧
      ∀ y ∈ l1, key (pyMin key x xs) < key y) ∧
    ∀ y ∈ x :: xs, key (pyMin key x xs) ≤ key y
  | [], x => by
    refine ⟨⟨[], [], rfl, by simp⟩, ?_⟩
    intro y hy
    simp only [List.mem_singleton] at hy
    simp [hy, pyMin]
  | y :: ys, x => by
    have hstep : pyMin key x (y :: ys) =
        pyMin key (if key y < key x then y else x) ys := rfl
    obtain ⟨⟨l1, l2, hdec, hl1⟩, hmin⟩ :=
      pyMin_spec key ys (if key y < key x then y else x)
    rw [hstep]
    by_cases hxy : key y < key x
    · rw [if_pos hxy] at hdec hl1 hmin ⊢
      have hmy : key (pyMin key y ys) ≤ key y := hmin y (List.mem_cons_self _ _)
      refine ⟨⟨x :: l1, l2, ?_, ?_⟩, ?_⟩
      · simp only [List.cons_append, List.cons.injEq, true_and]
        exact hdec
      · intro z hz
        rcases List.mem_cons.mp hz with rfl | hz
        · exact lt_of_le_of_lt hmy hxy
        · exact hl1 z hz
      · intro z hz
        rcases List.mem_cons.mp hz with rfl | hz
        · exact le_of_lt (lt_of_le_of_lt hmy hxy)
        · exact hmin z hz
    · rw [if_neg hxy] at hdec hl1 hmin ⊢
      have hxyle : key x ≤ key y := not_lt.mp hxy
      rcases l1 with _ | ⟨a, l1t⟩
      · simp only [List.nil_append, List.cons.injEq] at hdec
        obtain ⟨h1, h2⟩ := hdec
        refine ⟨⟨[], y :: ys, by simp [← h1], by simp⟩, ?_⟩
        intro z hz
        rcases List.mem_cons.mp hz with rfl | hz
        · rw [← h1]
        · rcases List.mem_cons.mp hz with rfl | hz
          · rw [← h1]; exact hxyle
          · exact hmin z (List.mem_cons_of_mem _ hz)
      · simp only [List.cons_append, List.cons.injEq] at hdec
        obtain ⟨heq, hys⟩ := hdec
        subst heq
        have hmx : key (pyMin key x ys) < key x := hl1 x (List.mem_cons_self _ _)
        refine ⟨⟨x :: y :: l1t, l2, ?_, ?_⟩, ?_⟩
        · simp only [List.cons_append, List.cons.injEq, true_and]
          exact hys
        · intro z hz
          rcases List.mem_cons.mp hz with rfl | hz
          · exact hmx
          · rcases List.mem_cons.mp hz with rfl | hz
            · exact lt_of_lt_of_le hmx hxyle
            · exact hl1 z (List.mem_cons_of_mem _ hz)
        · intro z hz
          rcases List.mem_cons.mp hz with rfl | hz
          · exact le_of_lt hmx
          · rcases List.mem_cons.mp hz with rfl | hz
            · exact le_of_lt (lt_of_lt_of_le hmx hxyle)
            · exact hmin z (List.mem_cons_of_mem _ hz)

/-- The selected element of Python `min` belongs to the scanned list. -/
theorem pyMin_mem (key : ℕ → ℝ) (x : ℕ) (xs : List ℕ) :
    pyMin key x xs ∈ x :: xs := by
  obtain ⟨⟨l1, l2, hdec, _⟩, _⟩ := pyMin_spec key xs x
  rw [hdec]
  exact List.mem_append_right l1 (List.mem_cons_self _ _)

/-- One step of the nearest-neighbor loop: the chosen stop is prepended and
removed from the unvisited set. -/
theorem nnTour_cons (locs : List Loc) (cur i : ℕ) (rest : List ℕ) :
    nnTour locs cur (i :: rest) =
      pyMin (nnKey locs cur) i rest ::
        nnTour locs (pyMin (nnKey locs cur) i rest)
          ((i :: rest).erase (pyMin (nnKey locs cur) i rest)) := by
  have hm := pyMin_mem (nnKey locs cur) i rest
  have hlen : ((i :: rest).erase (pyMin (nnKey locs cur) i rest)).length =
      rest.length := by
    rw [List.length_erase_of_mem hm]
    simp
  simp only [nnTour, List.length_cons, nnTourAux, hlen]

/-- The nearest-neighbor tour visits exactly the unvisited indices: it is a
permutation of them. -/
theorem nnTour_perm (locs : List Loc) : ∀ (n : ℕ) (u : List ℕ),
    u.length ≤ n → ∀ cur, (nnTour locs cur u).Perm u
  | _, [], _, _ => by simp [nnTour, nnTourAux]
  | 0, i :: rest, h, _ => by simp at h
  | n + 1, i :: rest, h, cur => by
    rw [nnTour_cons]
    have hm := pyMin_mem (nnKey locs cur) i rest
    have hlen : ((i :: rest).erase (pyMin (nnKey locs cur) i rest)).length ≤
        n := by
      rw [List.length_erase_of_mem hm]
      simp only [List.length_cons] at h ⊢
      omega
    have ih := nnTour_perm locs n ((i :: rest).erase
      (pyMin (nnKey locs cur) i rest)) hlen (pyMin (nnKey locs cur) i rest)
    exact (ih.cons _).trans (List.perm_cons_erase hm).symm

/-- C4: each step of the nearest-neighbor loop appends the unvisited location
of minimum great-circle distance from the current tour position; the chosen
index is preceded in the unvisited list only by strictly-farther indices, so
an exact tie is resolved to the location first encountered in input order;
and the loop is a function of its inputs, hence deterministic. -/
theorem nearest_neighbor_invariant (locs : List Loc) (cur i : ℕ)
    (rest : List ℕ) :
    nnTour locs cur (i :: rest) =
      pyMin (nnKey locs cur) i rest ::
        nnTour locs (pyMin (nnKey locs cur) i rest)
          ((i :: rest).erase (pyMin (nnKey locs cur) i rest)) ∧
    pyMin (nnKey locs cur) i rest ∈ i :: rest ∧
    (∀ j ∈ i :: rest,
      nnKey locs cur (pyMin (nnKey locs cur) i rest) ≤ nnKey locs cur j) ∧
    ∃ l1 l2, i :: rest = l1 ++ pyMin (nnKey locs cur) i rest :: l2 ∧
      ∀ j ∈ l1, nnKey locs cur (pyMin (nnKey locs cur) i rest) <
        nnKey locs cur j := by
  obtain ⟨hdec, hmin⟩ := pyMin_spec (nnKey locs cur) rest i
  exact ⟨nnTour_cons locs cur i rest, pyMin_mem _ i rest, hmin, hdec⟩

/-- Witness for C4 on a concrete three-location list. -/
theorem nearest_neighbor_invariant_witness :
    pyMin (nnKey locsW 0) 1 [2] ∈ [1, 2] ∧
    nnKey locsW 0 (pyMin (nnKey locsW 0) 1 [2]) ≤ nnKey locsW 0 2 := by
  have h := nearest_neighbor_invariant locsW 0 1 [2]
  exact ⟨h.2.1, h.2.2.1 2 (by simp)⟩

/-- Reading a list back by position reproduces the list. -/
theorem map_getD_range (l : List Order) (d : Order) :
    (List.range l.length).map (fun i => l.getD i d) = l := by
  apply List.ext_getElem
  · simp
  · intro i h1 h2
    simp only [List.getElem_map, List.getElem_range]
    exact List.getD_eq_getElem l d h2

/-- Reading a list back by 1-based position reproduces the list. -/
theorem map_getD_range' (l : List Order) (d : Order) :
    (List.range' 1 l.length).map (fun i => l.getD (i - 1) d) = l := by
  rw [List.range'_eq_map_range, List.map_map]
  have h : ((fun i => l.getD (i - 1) d) ∘ (fun k => 1 + k)) =
      fun i => l.getD i d := by
    funext i
    simp
  rw [h, map_getD_range]

/-- C6: for a non-empty order list of length `n`, `create_delivery_route`
succeeds and creates exactly one Route Stop per input order, the created
stops' `sequence` values are exactly the contiguous range `1..n` (hence no
duplicates), and the stops' orders are a permutation of the input orders,
listed in tour visitation order with the start excluded. -/
theorem create_delivery_route_stops (env : RouteEnv) (now : String)
    (courier : Courier) (orders : List Order) (name? : Option String)
    (h : orders ≠ []) :
    ∃ route stops,
      create_delivery_route env now courier orders name? = .ok (route, stops) ∧
      stops.map RouteOrderRec.sequence = List.range' 1 orders.length ∧
      (stops.map RouteOrderRec.order).Perm orders ∧
      stops.length = orders.length := by
  have hne : orders.isEmpty = false := by
    simpa [List.isEmpty_iff] using h
  have hperm : (nnTour (routeLocations courier orders) 0
      (List.range' 1 orders.length)).Perm (List.range' 1 orders.length) :=
    nnTour_perm _ (List.range' 1 orders.length).length _ (le_refl _) 0
  set tour := nnTour (routeLocations courier orders) 0
    (List.range' 1 orders.length) with htour
  have hlen : tour.length = orders.length := by
    rw [hperm.length_eq]
    simp
  have hzl : (List.range' 1 tour.length).length = tour.length := by simp
  have hcoSome : (optimize_route env courier orders).route_coordinates.isSome := by
    simp [optimize_route, hne]
  obtain ⟨cs, hco⟩ := Option.isSome_iff_exists.mp hcoSome
  have hroute : (optimize_route env courier orders).route =
      ((List.range' 1 tour.length).zip tour).map fun p =>
        ({ order := orders.getD (p.2 - 1) default, sequence := p.1,
           location := (routeLocations courier orders).getD p.2 (0, 0) } :
          RouteEntry) := by
    simp only [optimize_route, hne, Bool.false_eq_true, if_false, ← htour]
  have hcr : create_delivery_route env now courier orders name? = .ok
      ({ courier := courier.id,
         name := if pyStrTruthy name? then name?.getD ""
           else "Route " ++ now ++ " - " ++ courier.name,
         total_distance := (optimize_route env courier orders).total_distance,
         estimated_duration :=
           (optimize_route env courier orders).estimated_duration },
       (optimize_route env courier orders).route.map fun e =>
         ({ order := e.order, sequence := e.sequence } : RouteOrderRec)) := by
    simp only [create_delivery_route, hco]
  refine ⟨_, _, hcr, ?_, ?_, ?_⟩
  · rw [hroute, List.map_map, List.map_map]
    have hfun : ((RouteOrderRec.sequence ∘ fun e =>
        ({ order := e.order, sequence := e.sequence } : RouteOrderRec)) ∘
          fun p : ℕ × ℕ =>
        ({ order := orders.getD (p.2 - 1) default, sequence := p.1,
           location := (routeLocations courier orders).getD p.2 (0, 0) } :
          RouteEntry)) = Prod.fst := rfl
    rw [hfun, List.map_fst_zip _ _ (le_of_eq hzl), hlen]
  · rw [hroute, List.map_map, List.map_map]
    have hfun : ((RouteOrderRec.order ∘ fun e =>
        ({ order := e.order, sequence := e.sequence } : RouteOrderRec)) ∘
          fun p : ℕ × ℕ =>
        ({ order := orders.getD (p.2 - 1) default, sequence := p.1,
           location := (routeLocations courier orders).getD p.2 (0, 0) } :
          RouteEntry)) = (fun i => orders.getD (i - 1) default) ∘
            Prod.snd := rfl
    rw [hfun, ← List.map_map, List.map_snd_zip _ _ (le_of_eq hzl.symm)]
    have h1 : (tour.map fun i => orders.getD (i - 1) default).Perm
        ((List.range' 1 orders.length).map fun i =>
          orders.getD (i - 1) default) := hperm.map _
    rwa [map_getD_range' orders default] at h1
  · rw [hroute]
    simp [List.length_zip, hlen]

/-- Witness for C6 at a concrete courier and two orders. -/
theorem create_delivery_route_stops_witness :
    ∃ route stops,
      create_delivery_route envDisabled "T" courier6 [order6a, order6b] none =
        .ok (route, stops) ∧
      stops.map RouteOrderRec.sequence =
        List.range' 1 [order6a, order6b].length ∧
      (stops.map RouteOrderRec.order).Perm [order6a, order6b] ∧
      stops.length = [order6a, order6b].length :=
  create_delivery_route_stops envDisabled "T" courier6 [order6a, order6b] none
    (by simp)

/-- Counterexample to C8 as stated: `courier8` has a current position
(0, 30) — latitude on the equator — yet the tour's starting location is
neither that position nor the full default depot: Python's `or` treats the
stored `0.0` as missing and substitutes the depot latitude componentwise. -/
theorem start_location_counterexample :
    courier8.current_latitude = some 0 ∧
    courier8.current_longitude = some 30 ∧
    (routeLocations courier8 []).head? = some (startLocation courier8) ∧
    startLocation courier8 ≠ ((0 : ℚ), (30 : ℚ)) ∧
    startLocation courier8 ≠ ((50.4501 : ℚ), (30.5234 : ℚ)) ∧
    startLocation courier8 = ((50.4501 : ℚ), (30 : ℚ)) := by
  refine ⟨rfl, rfl, rfl, ?_, ?_, ?_⟩ <;>
    norm_num [startLocation, courier8, pyOr, Prod.ext_iff]

/-- C8 (amended): the tour's starting location equals the courier's current
position whenever both stored coordinates are present and nonzero, and the
default depot (50.4501, 30.5234) when both are absent; a stored zero
coordinate is treated as missing by Python truthiness and replaced
componentwise.  Each order's stop location resolves componentwise to the
order's own coordinate when present and nonzero, else the client's when
present and nonzero, else the starting location's — so every stop always has
a defined position.  The starting location heads the location list used by
`optimize_route`. -/
theorem location_resolution (courier : Courier) (order : Order)
    (orders : List Order) :
    (∀ x y, courier.current_latitude = some x → x ≠ 0 →
      courier.current_longitude = some y → y ≠ 0 →
      startLocation courier = (x, y)) ∧
    (courier.current_latitude = none → courier.current_longitude = none →
      startLocation courier = (50.4501, 30.5234)) ∧
    (routeLocations courier orders).head? = some (startLocation courier) ∧
    (routeLocations courier (order :: orders)).getD 1 (0, 0) =
      stopLocation (startLocation courier) order ∧
    (∀ x, order.latitude = some x → x ≠ 0 →
      (stopLocation (startLocation courier) order).1 = x) ∧
    ((order.latitude = none ∨ order.latitude = some 0) →
      ∀ y, order.client.latitude = some y → y ≠ 0 →
      (stopLocation (startLocation courier) order).1 = y) ∧
    ((order.latitude = none ∨ order.latitude = some 0) →
      (order.client.latitude = none ∨ order.client.latitude = some 0) →
      (stopLocation (startLocation courier) order).1 =
        (startLocation courier).1) ∧
    (∀ x, order.longitude = some x → x ≠ 0 →
      (stopLocation (startLocation courier) order).2 = x) ∧
    ((order.longitude = none ∨ order.longitude = some 0) →
      ∀ y, order.client.longitude = some y → y ≠ 0 →
      (stopLocation (startLocation courier) order).2 = y) ∧
    ((order.longitude = none ∨ order.longitude = some 0) →
      (order.client.longitude = none ∨ order.client.longitude = some 0) →
      (stopLocation (startLocation courier) order).2 =
        (startLocation courier).2) := by
  refine ⟨?_, ?_, rfl, rfl, ?_, ?_, ?_, ?_, ?_, ?_⟩
  · intro x y hx hxne hy hyne
    simp [startLocation, pyOr, hx, hy, hxne, hyne]
  · intro hx hy
    simp [startLocation, pyOr, hx, hy]
  · intro x hx hxne
    simp [stopLocation, pyOr, hx, hxne]
  · intro hlat y hy hyne
    rcases hlat with hlat | hlat <;>
      simp [stopLocation, pyOr, hlat, hy, hyne]
  · intro hlat hclat
    rcases hlat with hlat | hlat <;> rcases hclat with hclat | hclat <;>
      simp [stopLocation, pyOr, hlat, hclat]
  · intro x hx hxne
    simp [stopLocation, pyOr, hx, hxne]
  · intro hlon y hy hyne
    rcases hlon with hlon | hlon <;>
      simp [stopLocation, pyOr, hlon, hy, hyne]
  · intro hlon hclon
    rcases hlon with hlon | hlon <;> rcases hclon with hclon | hclon <;>
      simp [stopLocation, pyOr, hlon, hclon]

/-- Witness for C8 (amended) at a concrete courier and order. -/
theorem location_resolution_witness :
    startLocation courier7a = ((50 : ℚ), (30 : ℚ)) ∧
    (stopLocation (startLocation courier7a) order7).1 = 51 := by
  have h := location_resolution courier7a order7 []
  exact ⟨h.1 50 30 rfl (by norm_num) rfl (by norm_num),
    h.2.2.2.2.1 51 rfl (by norm_num)⟩

/-- C5: the Delivery Time Estimator's travel-time pipeline agrees everywhere
with the spec's closed formula — total time = 30 min preparation +
`(distance / vehicle_speed * 60) * traffic_factor * priority_factor` with the
spec's vehicle-speed, traffic-factor, and priority-factor tables (including
the unknown-category defaults) — and on the concrete instance (car, 10 km,
weekday hour 8, urgent) the total is exactly 43.5 minutes. -/
theorem delivery_time_formula :
    (∀ (vehicle_type : String) (distance : ℝ) (lat lon : ℚ)
      (hour day_of_week : ℕ) (priority : String),
      30 + final_travel_time vehicle_type distance lat lon hour day_of_week
          priority =
        30 + distance / (spec_vehicle_speed vehicle_type : ℝ) * 60 *
          (spec_traffic_factor hour day_of_week : ℝ) *
          (spec_priority_factor priority : ℝ)) ∧
    30 + final_travel_time "car" 10 50 30 8 2 "urgent" = 43.5 := by
  have hspeed : ∀ v : String, dictGetQ vehicle_speeds v 25 =
      spec_vehicle_speed v := by
    intro v
    by_cases h1 : v = "bike"
    · subst h1
      simp [dictGetQ, vehicle_speeds, List.find?, spec_vehicle_speed]
    · by_cases h2 : v = "motorcycle"
      · subst h2
        simp [dictGetQ, vehicle_speeds, List.find?, spec_vehicle_speed]
      · by_cases h3 : v = "car"
        · subst h3
          simp [dictGetQ, vehicle_speeds, List.find?, spec_vehicle_speed]
        · by_cases h4 : v = "van"
          · subst h4
            simp [dictGetQ, vehicle_speeds, List.find?, spec_vehicle_speed]
          · have e1 : ("bike" == v) = false :=
              beq_eq_false_iff_ne.mpr (Ne.symm h1)
            have e2 : ("motorcycle" == v) = false :=
              beq_eq_false_iff_ne.mpr (Ne.symm h2)
            have e3 : ("car" == v) = false :=
              beq_eq_false_iff_ne.mpr (Ne.symm h3)
            have e4 : ("van" == v) = false :=
              beq_eq_false_iff_ne.mpr (Ne.symm h4)
            simp [dictGetQ, vehicle_speeds, List.find?, e1, e2, e3, e4,
              spec_vehicle_speed, h1, h2, h3, h4]
  have hprio : ∀ p : String, dictGetQ priority_factors p 1.0 =
      spec_priority_factor p := by
    intro p
    by_cases h1 : p = "low"
    · subst h1
      simp [dictGetQ, priority_factors, List.find?, spec_priority_factor]
      norm_num
    · by_cases h2 : p = "normal"
      · subst h2
        simp [dictGetQ, priority_factors, List.find?, spec_priority_factor]
        norm_num
      · by_cases h3 : p = "high"
        · subst h3
          simp [dictGetQ, priority_factors, List.find?, spec_priority_factor]
        · by_cases h4 : p = "urgent"
          · subst h4
            simp [dictGetQ, priority_factors, List.find?,
              spec_priority_factor]
          · have e1 : ("low" == p) = false :=
              beq_eq_false_iff_ne.mpr (Ne.symm h1)
            have e2 : ("normal" == p) = false :=
              beq_eq_false_iff_ne.mpr (Ne.symm h2)
            have e3 : ("high" == p) = false :=
              beq_eq_false_iff_ne.mpr (Ne.symm h3)
            have e4 : ("urgent" == p) = false :=
              beq_eq_false_iff_ne.mpr (Ne.symm h4)
            simp [dictGetQ, priority_factors, List.find?, e1, e2, e3, e4,
              spec_priority_factor, h1, h2, h3, h4]
            norm_num
  have htraffic : ∀ (lat lon : ℚ) (hour dow : ℕ),
      get_traffic_factor lat lon hour dow = spec_traffic_factor hour dow := by
    intro lat lon hour dow
    rfl
  constructor
  · intro vehicle_type distance lat lon hour day_of_week priority
    simp only [final_travel_time, hspeed, hprio, htraffic]
  · simp only [final_travel_time, hspeed, hprio, htraffic]
    simp [spec_vehicle_speed, spec_priority_factor, spec_traffic_factor]
    norm_num

/-- Invariant of the nearest-courier fold: it returns `none` exactly when it
started empty and saw no courier with a known position, and any returned best
pair is either the initial accumulator or a known-position courier from the
list carrying its own distance, and its distance is a lower bound for the
initial accumulator and for every known-position courier scanned. -/
theorem bestStep_fold_spec (la lo : ℚ) : ∀ (cs : List Courier)
    (acc : Option (Courier × ℝ)),
    (cs.foldl (bestStep la lo) acc = none ↔
      (acc = none ∧ ∀ c ∈ cs, posKnown c = false)) ∧
    (∀ p, cs.foldl (bestStep la lo) acc = some p →
      (acc = some p ∨
        (p.1 ∈ cs ∧ posKnown p.1 = true ∧ p.2 = courierDist p.1 la lo)) ∧
      (∀ q, acc = some q → p.2 ≤ q.2) ∧
      (∀ c ∈ cs, posKnown c = true → p.2 ≤ courierDist c la lo))
  | [], acc => by
    refine ⟨by simp, ?_⟩
    intro p hp
    simp only [List.foldl_nil] at hp
    refine ⟨Or.inl hp, ?_, by simp⟩
    intro q hq
    rw [hp] at hq
    cases hq
    exact le_refl _
  | c :: cs, acc => by
    have hstep : (c :: cs).foldl (bestStep la lo) acc =
        cs.foldl (bestStep la lo) (bestStep la lo acc c) := rfl
    rw [hstep]
    cases hpk : posKnown c with
    | false =>
      have hacc : bestStep la lo acc c = acc := by
        simp [bestStep, hpk]
      rw [hacc]
      obtain ⟨ih1, ih2⟩ := bestStep_fold_spec la lo cs acc
      refine ⟨?_, ?_⟩
      · rw [ih1]
        constructor
        · rintro ⟨h1, h2⟩
          refine ⟨h1, ?_⟩
          intro x hx
          rcases List.mem_cons.mp hx with rfl | hx
          · exact hpk
          · exact h2 x hx
        · rintro ⟨h1, h2⟩
          exact ⟨h1, fun x hx => h2 x (List.mem_cons_of_mem _ hx)⟩
      · intro p hp
        obtain ⟨horig, hacc2, hmin⟩ := ih2 p hp
        refine ⟨?_, hacc2, ?_⟩
        · rcases horig with h | ⟨h1, h2, h3⟩
          · exact Or.inl h
          · exact Or.inr ⟨List.mem_cons_of_mem _ h1, h2, h3⟩
        · intro x hx hxp
          rcases List.mem_cons.mp hx with rfl | hx
          · rw [hpk] at hxp
            cases hxp
          · exact hmin x hx hxp
    | true =>
      cases acc with
      | none =>
        have hacc : bestStep la lo none c = some (c, courierDist c la lo) := by
          simp [bestStep, hpk]
        rw [hacc]
        obtain ⟨ih1, ih2⟩ := bestStep_fold_spec la lo cs
          (some (c, courierDist c la lo))
        refine ⟨?_, ?_⟩
        · rw [ih1]
          constructor
          · rintro ⟨h1, _⟩
            cases h1
          · rintro ⟨_, h2⟩
            have := h2 c (List.mem_cons_self _ _)
            rw [hpk] at this
            cases this
        · intro p hp
          obtain ⟨horig, hacc2, hmin⟩ := ih2 p hp
          refine ⟨?_, ?_, ?_⟩
          · rcases horig with h | ⟨h1, h2, h3⟩
            · cases h
              exact Or.inr ⟨List.mem_cons_self _ _, hpk, rfl⟩
            · exact Or.inr ⟨List.mem_cons_of_mem _ h1, h2, h3⟩
          · intro q hq
            cases hq
          · intro x hx hxp
            rcases List.mem_cons.mp hx with rfl | hx
            · exact hacc2 (x, courierDist x la lo) rfl
            · exact hmin x hx hxp
      | some bm =>
        by_cases hlt : courierDist c la lo < bm.2
        · have hacc : bestStep la lo (some bm) c =
              some (c, courierDist c la lo) := by
            simp only [bestStep, hpk, if_true]
            rw [if_pos hlt]
          rw [hacc]
          obtain ⟨ih1, ih2⟩ := bestStep_fold_spec la lo cs
            (some (c, courierDist c la lo))
          refine ⟨?_, ?_⟩
          · rw [ih1]
            constructor
            · rintro ⟨h1, _⟩
              cases h1
            · rintro ⟨h1, _⟩
              cases h1
          · intro p hp
            obtain ⟨horig, hacc2, hmin⟩ := ih2 p hp
            have hple : p.2 ≤ courierDist c la lo :=
              hacc2 (c, courierDist c la lo) rfl
            refine ⟨?_, ?_, ?_⟩
            · rcases horig with h | ⟨h1, h2, h3⟩
              · cases h
                exact Or.inr ⟨List.mem_cons_self _ _, hpk, rfl⟩
              · exact Or.inr ⟨List.mem_cons_of_mem _ h1, h2, h3⟩
            · intro q hq
              cases hq
              exact le_of_lt (lt_of_le_of_lt hple hlt)
            · intro x hx hxp
              rcases List.mem_cons.mp hx with rfl | hx
              · exact hple
              · exact hmin x hx hxp
        · have hacc : bestStep la lo (some bm) c = some bm := by
            simp only [bestStep, hpk, if_true]
            rw [if_neg hlt]
          rw [hacc]
          obtain ⟨ih1, ih2⟩ := bestStep_fold_spec la lo cs (some bm)
          refine ⟨?_, ?_⟩
          · rw [ih1]
            constructor
            · rintro ⟨h1, _⟩
              cases h1
            · rintro ⟨h1, _⟩
              cases h1
          · intro p hp
            obtain ⟨horig, hacc2, hmin⟩ := ih2 p hp
            have hple : p.2 ≤ bm.2 := hacc2 bm rfl
            refine ⟨?_, ?_, ?_⟩
            · rcases horig with h | ⟨h1, h2, h3⟩
              · cases h
                exact Or.inl rfl
              · exact Or.inr ⟨List.mem_cons_of_mem _ h1, h2, h3⟩
            · intro q hq
              cases hq
              exact hple
            · intro x hx hxp
              rcases List.mem_cons.mp hx with rfl | hx
              · exact le_trans hple (not_lt.mp hlt)
              · exact hmin x hx hxp

/-- The selection loop returns `none` exactly when no scanned courier has a
known position. -/
theorem bestCourier_none_iff (cs : List Courier) (la lo : ℚ) :
    bestCourier cs la lo = none ↔ ∀ c ∈ cs, posKnown c = false := by
  unfold bestCourier
  rw [Option.map_eq_none']
  rw [(bestStep_fold_spec la lo cs none).1]
  simp

/-- A courier returned by the selection loop is a scanned courier with a
known position at minimum distance among known-position couriers. -/
theorem bestCourier_some_spec (cs : List Courier) (la lo : ℚ) (c : Courier)
    (h : bestCourier cs la lo = some c) :
    c ∈ cs ∧ posKnown c = true ∧
      ∀ x ∈ cs, posKnown x = true →
        courierDist c la lo ≤ courierDist x la lo := by
  unfold bestCourier at h
  rw [Option.map_eq_some'] at h
  obtain ⟨p, hp, hpc⟩ := h
  obtain ⟨horig, _, hmin⟩ := (bestStep_fold_spec la lo cs none).2 p hp
  rcases horig with h | ⟨h1, h2, h3⟩
  · cases h
  · subst hpc
    refine ⟨h1, h2, ?_⟩
    intro x hx hxp
    rw [← h3]
    exact hmin x hx hxp

/-- C7: `assign_optimal_courier` returns no courier exactly when there are
zero available couriers.  With at least one available courier: if the order's
location does not resolve (even after geocoding) it returns the first
available courier; if no available courier has a known (truthy) position it
returns the first available courier; and if the location resolves and some
available courier has a known position, it returns an available courier with
a known position at minimum great-circle distance to the resolved order
location. -/
theorem assign_optimal_courier_spec (env : Env) (state : DBState)
    (order : Order) :
    ((assign_optimal_courier env state order).1 = none ↔
      state.couriers.filter (·.available) = []) ∧
    (state.couriers.filter (·.available) ≠ [] →
      (qTruthy (geocodeStep env order).lat &&
        qTruthy (geocodeStep env order).lon) = false →
      (assign_optimal_courier env state order).1 =
        (state.couriers.filter (·.available)).head?) ∧
    (state.couriers.filter (·.available) ≠ [] →
      (∀ c ∈ state.couriers.filter (·.available), posKnown c = false) →
      (assign_optimal_courier env state order).1 =
        (state.couriers.filter (·.available)).head?) ∧
    (state.couriers.filter (·.available) ≠ [] →
      (qTruthy (geocodeStep env order).lat &&
        qTruthy (geocodeStep env order).lon) = true →
      ∀ c0 ∈ state.couriers.filter (·.available), posKnown c0 = true →
      ∃ c, (assign_optimal_courier env state order).1 = some c ∧
        c ∈ state.couriers.filter (·.available) ∧ posKnown c = true ∧
        ∀ c2 ∈ state.couriers.filter (·.available), posKnown c2 = true →
          courierDist c ((geocodeStep env order).lat.getD 0)
              ((geocodeStep env order).lon.getD 0) ≤
            courierDist c2 ((geocodeStep env order).lat.getD 0)
              ((geocodeStep env order).lon.getD 0)) := by
  set avail := state.couriers.filter (·.available) with havail
  by_cases hemp : avail = []
  · have hres : assign_optimal_courier env state order = (none, order, state) := by
      simp [assign_optimal_courier, ← havail, hemp]
    refine ⟨?_, ?_, ?_, ?_⟩
    · rw [hres]
      simp [hemp]
    · intro h
      exact absurd hemp h
    · intro h
      exact absurd hemp h
    · intro h
      exact absurd hemp h
  · have hne : avail.isEmpty = false := by
      simpa [List.isEmpty_iff] using hemp
    have hhead : avail.head? ≠ none := by
      simpa [List.head?_eq_none_iff] using hemp
    have hbody : assign_optimal_courier env state order =
        (if !(qTruthy (geocodeStep env order).lat) ||
            !(qTruthy (geocodeStep env order).lon) then
          (avail.head?, (geocodeStep env order).order,
            if (geocodeStep env order).saved then
              saveOrder state (geocodeStep env order).order
            else state)
        else
          match bestCourier avail ((geocodeStep env order).lat.getD 0)
              ((geocodeStep env order).lon.getD 0) with
          | some c => (some c, (geocodeStep env order).order,
              if (geocodeStep env order).saved then
                saveOrder state (geocodeStep env order).order
              else state)
          | none => (avail.head?, (geocodeStep env order).order,
              if (geocodeStep env order).saved then
                saveOrder state (geocodeStep env order).order
              else state)) := by
      simp only [assign_optimal_courier, ← havail, hne, Bool.false_eq_true,
        if_false]
    refine ⟨?_, ?_, ?_, ?_⟩
    · rw [hbody]
      simp only [hemp, iff_false]
      cases hcond : (!(qTruthy (geocodeStep env order).lat) ||
          !(qTruthy (geocodeStep env order).lon)) with
      | true =>
        simpa using hhead
      | false =>
        simp only [Bool.false_eq_true, if_false]
        cases hbc : bestCourier avail ((geocodeStep env order).lat.getD 0)
            ((geocodeStep env order).lon.getD 0) with
        | none => simpa using hhead
        | some c => simp
    · intro _ hgeo
      have hcond : (!(qTruthy (geocodeStep env order).lat) ||
          !(qTruthy (geocodeStep env order).lon)) = true := by
        rcases Bool.and_eq_false_iff.mp hgeo with h | h <;> simp [h]
      rw [hbody, if_pos hcond]
    · intro _ hunknown
      have hbc : bestCourier avail ((geocodeStep env order).lat.getD 0)
          ((geocodeStep env order).lon.getD 0) = none :=
        (bestCourier_none_iff _ _ _).mpr hunknown
      rw [hbody]
      cases hcond : (!(qTruthy (geocodeStep env order).lat) ||
          !(qTruthy (geocodeStep env order).lon)) with
      | true => simp
      | false =>
        simp only [Bool.false_eq_true, if_false, hbc]
    · intro _ hgeo c0 hc0 hc0p
      have hla : qTruthy (geocodeStep env order).lat = true :=
        (Bool.and_eq_true_iff.mp hgeo).1
      have hlo : qTruthy (geocodeStep env order).lon = true :=
        (Bool.and_eq_true_iff.mp hgeo).2
      have hcond : (!(qTruthy (geocodeStep env order).lat) ||
          !(qTruthy (geocodeStep env order).lon)) = false := by
        simp [hla, hlo]
      cases hbc : bestCourier avail ((geocodeStep env order).lat.getD 0)
          ((geocodeStep env order).lon.getD 0) with
      | none =>
        have := ((bestCourier_none_iff _ _ _).mp hbc) c0 hc0
        rw [hc0p] at this
        cases this
      | some c =>
        obtain ⟨hmem, hpos, hmin⟩ := bestCourier_some_spec _ _ _ _ hbc
        refine ⟨c, ?_, hmem, hpos, hmin⟩
        rw [hbody, if_neg (by simp [hcond]), hbc]

/-- Witness for C7: two available couriers with known positions and a
resolvable order location; the theorem yields a nearest available courier. -/
theorem assign_optimal_courier_spec_witness :
    ∃ c, (assign_optimal_courier env3 state7 order7).1 = some c ∧
      c ∈ state7.couriers.filter (·.available) ∧ posKnown c = true ∧
      ∀ c2 ∈ state7.couriers.filter (·.available), posKnown c2 = true →
        courierDist c ((geocodeStep env3 order7).lat.getD 0)
            ((geocodeStep env3 order7).lon.getD 0) ≤
          courierDist c2 ((geocodeStep env3 order7).lat.getD 0)
            ((geocodeStep env3 order7).lon.getD 0) := by
  refine (assign_optimal_courier_spec env3 state7 order7).2.2.2 ?_ ?_
    courier7a ?_ ?_
  · simp [state7, courier7a, courier7b]
  · simp [geocodeStep, order7, client0, pyOrOpt, qTruthy]
  · simp [state7, courier7a, courier7b]
  · simp [posKnown, courier7a, qTruthy]

/-- Saving an order does not touch the courier table. -/
theorem saveOrder_couriers (st : DBState) (x : Order) :
    (saveOrder st x).couriers = st.couriers := rfl

/-- Saving an order preserves the stored id sequence. -/
theorem saveOrder_ids (st : DBState) (x : Order) :
    (saveOrder st x).orders.map (·.id) = st.orders.map (·.id) := by
  simp only [saveOrder, List.map_map]
  apply List.map_congr_left
  intro y _
  by_cases h : y.id = x.id <;> simp [h]

/-- A stored order with a different id survives a save untouched. -/
theorem saveOrder_mem_of_ne (st : DBState) (x o : Order) (ho : o ∈ st.orders)
    (hne : x.id ≠ o.id) : o ∈ (saveOrder st x).orders := by
  simp only [saveOrder]
  refine List.mem_map.mpr ⟨o, ho, ?_⟩
  rw [if_neg (fun h => hne h.symm)]

/-- A save lands: if some stored row carries the saved id, the saved record
is stored afterwards. -/
theorem saveOrder_mem_self (st : DBState) (x : Order)
    (h : ∃ y ∈ st.orders, y.id = x.id) : x ∈ (saveOrder st x).orders := by
  obtain ⟨y, hy, hid⟩ := h
  simp only [saveOrder]
  refine List.mem_map.mpr ⟨y, hy, ?_⟩
  rw [if_pos hid]

/-- Every row after a save is the saved record or an untouched row with a
different id. -/
theorem saveOrder_mem_inv (st : DBState) (x y : Order)
    (h : y ∈ (saveOrder st x).orders) :
    y = x ∨ (y ∈ st.orders ∧ y.id ≠ x.id) := by
  simp only [saveOrder] at h
  obtain ⟨z, hz, hzy⟩ := List.mem_map.mp h
  by_cases hid : z.id = x.id
  · rw [if_pos hid] at hzy
    exact Or.inl hzy.symm
  · rw [if_neg hid] at hzy
    subst hzy
    exact Or.inr ⟨hz, hid⟩

/-- The geocode-resolution block only ever rewrites the order's stored
coordinates. -/
theorem geocodeStep_order_fields (env : Env) (o : Order) :
    (geocodeStep env o).order.id = o.id ∧
    (geocodeStep env o).order.status = o.status ∧
    (geocodeStep env o).order.created_date = o.created_date ∧
    (geocodeStep env o).order.courier = o.courier := by
  simp only [geocodeStep]
  cases h1 : !(qTruthy (pyOrOpt o.latitude o.client.latitude) &&
      qTruthy (pyOrOpt o.longitude o.client.longitude)) <;>
    cases h2 : qTruthy (env.geocode o.address).1 &&
      qTruthy (env.geocode o.address).2 <;>
    simp [h1, h2]

/-- `assign_optimal_courier` does not touch the courier table. -/
theorem assign_couriers (env : Env) (st : DBState) (o : Order) :
    (assign_optimal_courier env st o).2.2.couriers = st.couriers := by
  simp only [assign_optimal_courier]
  cases he : (st.couriers.filter (·.available)).isEmpty
  · cases hs : (geocodeStep env o).saved <;>
      cases hc : (!qTruthy (geocodeStep env o).lat ||
        !qTruthy (geocodeStep env o).lon) <;>
      cases hb : bestCourier (st.couriers.filter (·.available))
        ((geocodeStep env o).lat.getD 0) ((geocodeStep env o).lon.getD 0) <;>
      simp [he, hs, hc, hb, saveOrder_couriers]
  · simp [he]

/-- `assign_optimal_courier` preserves the stored order-id sequence. -/
theorem assign_ids (env : Env) (st : DBState) (o : Order) :
    (assign_optimal_courier env st o).2.2.orders.map (·.id) =
      st.orders.map (·.id) := by
  simp only [assign_optimal_courier]
  cases he : (st.couriers.filter (·.available)).isEmpty
  · cases hs : (geocodeStep env o).saved <;>
      cases hc : (!qTruthy (geocodeStep env o).lat ||
        !qTruthy (geocodeStep env o).lon) <;>
      cases hb : bestCourier (st.couriers.filter (·.available))
        ((geocodeStep env o).lat.getD 0) ((geocodeStep env o).lon.getD 0) <;>
      simp [he, hs, hc, hb, saveOrder_ids]
  · simp [he]

/-- The order object `assign_optimal_courier` hands back differs from its
input only in the stored coordinates. -/
theorem assign_order_fields (env : Env) (st : DBState) (o : Order) :
    (assign_optimal_courier env st o).2.1.id = o.id ∧
    (assign_optimal_courier env st o).2.1.status = o.status ∧
    (assign_optimal_courier env st o).2.1.created_date = o.created_date ∧
    (assign_optimal_courier env st o).2.1.courier = o.courier := by
  have hg := geocodeStep_order_fields env o
  simp only [assign_optimal_courier]
  cases he : (st.couriers.filter (·.available)).isEmpty
  · cases hc : (!qTruthy (geocodeStep env o).lat ||
        !qTruthy (geocodeStep env o).lon) <;>
      cases hb : bestCourier (st.couriers.filter (·.available))
        ((geocodeStep env o).lat.getD 0) ((geocodeStep env o).lon.getD 0) <;>
      simp [he, hc, hb, hg.1, hg.2.1, hg.2.2.1, hg.2.2.2]
  · simp [he]

/-- Any courier chosen by `assign_optimal_courier` is stored and available. -/
theorem assign_some_avail (env : Env) (st : DBState) (o : Order) (c : Courier)
    (h : (assign_optimal_courier env st o).1 = some c) :
    c ∈ st.couriers ∧ c.available = true := by
  suffices hsuff : c ∈ st.couriers.filter (·.available) by
    have := List.mem_filter.mp hsuff
    simpa using this
  simp only [assign_optimal_courier] at h
  cases he : (st.couriers.filter (·.available)).isEmpty with
  | true => simp [he] at h
  | false =>
    rw [he] at h
    simp only [Bool.false_eq_true, if_false] at h
    cases hc : (!qTruthy (geocodeStep env o).lat ||
        !qTruthy (geocodeStep env o).lon) with
    | true =>
      rw [hc] at h
      simp only [if_true] at h
      exact List.mem_of_mem_head? h
    | false =>
      rw [hc] at h
      simp only [Bool.false_eq_true, if_false] at h
      cases hb : bestCourier (st.couriers.filter (·.available))
          ((geocodeStep env o).lat.getD 0) ((geocodeStep env o).lon.getD 0) with
      | none =>
        rw [hb] at h
        simp only at h
        exact List.mem_of_mem_head? h
      | some c2 =>
        rw [hb] at h
        simp only [Option.some.injEq] at h
        subst h
        exact (bestCourier_some_spec _ _ _ _ hb).1

/-- An order with a different id survives `assign_optimal_courier`'s
geocode save untouched. -/
theorem assign_mem_of_ne (env : Env) (st : DBState) (o o2 : Order)
    (ho2 : o2 ∈ st.orders) (hne : o.id ≠ o2.id) :
    o2 ∈ (assign_optimal_courier env st o).2.2.orders := by
  have hid : (geocodeStep env o).order.id = o.id :=
    (geocodeStep_order_fields env o).1
  simp only [assign_optimal_courier]
  cases he : (st.couriers.filter (·.available)).isEmpty
  · cases hs : (geocodeStep env o).saved <;>
      cases hc : (!qTruthy (geocodeStep env o).lat ||
        !qTruthy (geocodeStep env o).lon) <;>
      cases hb : bestCourier (st.couriers.filter (·.available))
        ((geocodeStep env o).lat.getD 0) ((geocodeStep env o).lon.getD 0) <;>
      simp only [he, hs, hc, hb, Bool.false_eq_true, if_false, if_true] <;>
      first
        | exact ho2
        | exact saveOrder_mem_of_ne st _ o2 ho2 (by rw [hid]; exact hne)
  · simp [he, ho2]

/-- Inserting into a group table keeps every bucket nonempty. -/
theorem insertGroup_nonempty : ∀ (gs : List (ℕ × List Order)) (k : ℕ)
    (o : Order), (∀ g ∈ gs, g.2 ≠ []) → ∀ g ∈ insertGroup gs k o, g.2 ≠ []
  | [], k, o, _ => by
    intro g hg
    simp only [insertGroup, List.mem_singleton] at hg
    subst hg
    simp
  | (k0, os0) :: rest, k, o, h => by
    intro g hg
    simp only [insertGroup] at hg
    by_cases hk : k0 = k
    · rw [if_pos hk] at hg
      rcases List.mem_cons.mp hg with rfl | hg
      · simp
      · exact h g (List.mem_cons_of_mem _ hg)
    · rw [if_neg hk] at hg
      rcases List.mem_cons.mp hg with rfl | hg
      · exact h _ (List.mem_cons_self _ _)
      · exact insertGroup_nonempty rest k o
          (fun g2 hg2 => h g2 (List.mem_cons_of_mem _ hg2)) g hg

/-- Every bucket member after an insert was already in a same-key bucket or
is the inserted order in its key's bucket. -/
theorem insertGroup_mem_inv : ∀ (gs : List (ℕ × List Order)) (k : ℕ)
    (o : Order) (g : ℕ × List Order) (o2 : Order), g ∈ insertGroup gs k o →
    o2 ∈ g.2 →
    (∃ g0 ∈ gs, g0.1 = g.1 ∧ o2 ∈ g0.2) ∨ (o2 = o ∧ g.1 = k)
  | [], k, o, g, o2 => by
    intro hg ho2
    simp only [insertGroup, List.mem_singleton] at hg
    subst hg
    simp only [List.mem_singleton] at ho2
    exact Or.inr ⟨ho2, rfl⟩
  | (k0, os0) :: rest, k, o, g, o2 => by
    intro hg ho2
    simp only [insertGroup] at hg
    by_cases hk : k0 = k
    · rw [if_pos hk] at hg
      rcases List.mem_cons.mp hg with rfl | hg
      · rcases List.mem_append.mp ho2 with h2 | h2
        · exact Or.inl ⟨(k0, os0), List.mem_cons_self _ _, rfl, h2⟩
        · simp only [List.mem_singleton] at h2
          exact Or.inr ⟨h2, hk.symm ▸ rfl⟩
      · exact Or.inl ⟨g, List.mem_cons_of_mem _ hg, rfl, ho2⟩
    · rw [if_neg hk] at hg
      rcases List.mem_cons.mp hg with rfl | hg
      · exact Or.inl ⟨(k0, os0), List.mem_cons_self _ _, rfl, ho2⟩
      · rcases insertGroup_mem_inv rest k o g o2 hg ho2 with
          ⟨g0, hg0, hkey, hmem⟩ | h2
        · exact Or.inl ⟨g0, List.mem_cons_of_mem _ hg0, hkey, hmem⟩
        · exact Or.inr h2

/-- After inserting, the inserted order sits in a bucket with its key. -/
theorem insertGroup_exists : ∀ (gs : List (ℕ × List Order)) (k : ℕ)
    (o : Order), ∃ g ∈ insertGroup gs k o, g.1 = k ∧ o ∈ g.2
  | [], k, o => ⟨(k, [o]), by simp [insertGroup]⟩
  | (k0, os0) :: rest, k, o => by
    simp only [insertGroup]
    by_cases hk : k0 = k
    · rw [if_pos hk]
      exact ⟨(k0, os0 ++ [o]), List.mem_cons_self _ _, hk, by simp⟩
    · rw [if_neg hk]
      obtain ⟨g, hg, hkey, hmem⟩ := insertGroup_exists rest k o
      exact ⟨g, List.mem_cons_of_mem _ hg, hkey, hmem⟩

/-- Inserting never removes an order from its bucket. -/
theorem insertGroup_preserve : ∀ (gs : List (ℕ × List Order)) (k : ℕ)
    (o : Order) (k0 : ℕ) (o0 : Order),
    (∃ g ∈ gs, g.1 = k0 ∧ o0 ∈ g.2) →
    ∃ g ∈ insertGroup gs k o, g.1 = k0 ∧ o0 ∈ g.2
  | [], _, _, _, _ => by
    rintro ⟨g, hg, _⟩
    cases hg
  | (k1, os1) :: rest, k, o, k0, o0 => by
    rintro ⟨g, hg, hkey, hmem⟩
    simp only [insertGroup]
    by_cases hk : k1 = k
    · rw [if_pos hk]
      rcases List.mem_cons.mp hg with rfl | hg
      · exact ⟨(k1, os1 ++ [o]), List.mem_cons_self _ _, hkey,
          List.mem_append_left _ hmem⟩
      · exact ⟨g, List.mem_cons_of_mem _ hg, hkey, hmem⟩
    · rw [if_neg hk]
      rcases List.mem_cons.mp hg with rfl | hg
      · exact ⟨(k1, os1), List.mem_cons_self _ _, hkey, hmem⟩
      · obtain ⟨g2, hg2, hkey2, hmem2⟩ :=
          insertGroup_preserve rest k o k0 o0 ⟨g, hg, hkey, hmem⟩
        exact ⟨g2, List.mem_cons_of_mem _ hg2, hkey2, hmem2⟩

/-- Grouping does not touch the courier table. -/
theorem grouping_couriers (env : Env) : ∀ (os : List Order)
    (gs : List (ℕ × List Order)) (st : DBState),
    (group_orders_for_routing env os gs st).2.couriers = st.couriers
  | [], gs, st => rfl
  | o :: os, gs, st => by
    simp only [group_orders_for_routing]
    cases hc : o.courier with
    | some cid => exact grouping_couriers env os _ st
    | none =>
      cases ha : assign_optimal_courier env st o with
      | mk oc rest2 =>
        cases rest2 with
        | mk o1 st1 =>
          have hcour : st1.couriers = st.couriers := by
            have := assign_couriers env st o
            rw [ha] at this
            exact this
          cases oc with
          | some c =>
            simp only
            rw [grouping_couriers env os _ st1, hcour]
          | none =>
            simp only
            rw [grouping_couriers env os _ st1, hcour]

/-- Grouping preserves the stored order-id sequence. -/
theorem grouping_ids (env : Env) : ∀ (os : List Order)
    (gs : List (ℕ × List Order)) (st : DBState),
    (group_orders_for_routing env os gs st).2.orders.map (·.id) =
      st.orders.map (·.id)
  | [], gs, st => rfl
  | o :: os, gs, st => by
    simp only [group_orders_for_routing]
    cases hc : o.courier with
    | some cid => exact grouping_ids env os _ st
    | none =>
      cases ha : assign_optimal_courier env st o with
      | mk oc rest2 =>
        cases rest2 with
        | mk o1 st1 =>
          have hids : st1.orders.map (·.id) = st.orders.map (·.id) := by
            have := assign_ids env st o
            rw [ha] at this
            exact this
          cases oc with
          | some c =>
            simp only
            rw [grouping_ids env os _ st1, hids]
          | none =>
            simp only
            rw [grouping_ids env os _ st1, hids]

/-- Grouping keeps every bucket nonempty. -/
theorem grouping_nonempty (env : Env) : ∀ (os : List Order)
    (gs : List (ℕ × List Order)) (st : DBState),
    (∀ g ∈ gs, g.2 ≠ []) →
    ∀ g ∈ (group_orders_for_routing env os gs st).1, g.2 ≠ []
  | [], gs, st, h => h
  | o :: os, gs, st, h => by
    simp only [group_orders_for_routing]
    cases hc : o.courier with
    | some cid =>
      exact grouping_nonempty env os _ st (insertGroup_nonempty gs cid o h)
    | none =>
      cases ha : assign_optimal_courier env st o with
      | mk oc rest2 =>
        cases rest2 with
        | mk o1 st1 =>
          cases oc with
          | some c =>
            exact grouping_nonempty env os _ st1
              (insertGroup_nonempty gs c.id o1 h)
          | none => exact grouping_nonempty env os gs st1 h

/-- Grouping never removes an order from an existing bucket. -/
theorem grouping_preserve (env : Env) : ∀ (os : List Order)
    (gs : List (ℕ × List Order)) (st : DBState) (k0 : ℕ) (o0 : Order),
    (∃ g ∈ gs, g.1 = k0 ∧ o0 ∈ g.2) →
    ∃ g ∈ (group_orders_for_routing env os gs st).1, g.1 = k0 ∧ o0 ∈ g.2
  | [], gs, st, k0, o0, h => h
  | o :: os, gs, st, k0, o0, h => by
    simp only [group_orders_for_routing]
    cases hc : o.courier with
    | some cid =>
      exact grouping_preserve env os _ st k0 o0
        (insertGroup_preserve gs cid o k0 o0 h)
    | none =>
      cases ha : assign_optimal_courier env st o with
      | mk oc rest2 =>
        cases rest2 with
        | mk o1 st1 =>
          cases oc with
          | some c =>
            exact grouping_preserve env os _ st1 k0 o0
              (insertGroup_preserve gs c.id o1 k0 o0 h)
          | none => exact grouping_preserve env os gs st1 k0 o0 h

/-- An order that already carries a courier id lands unchanged in that
courier's bucket. -/
theorem grouping_key_mem (env : Env) : ∀ (os : List Order)
    (gs : List (ℕ × List Order)) (st : DBState) (o : Order) (cid : ℕ),
    o ∈ os → o.courier = some cid →
    ∃ g ∈ (group_orders_for_routing env os gs st).1, g.1 = cid ∧ o ∈ g.2
  | [], _, _, _, _, hmem, _ => by cases hmem
  | o2 :: os, gs, st, o, cid, hmem, hc => by
    rcases List.mem_cons.mp hmem with rfl | hmem
    · simp only [group_orders_for_routing, hc]
      exact grouping_preserve env os _ st cid o (insertGroup_exists gs cid o)
    · simp only [group_orders_for_routing]
      cases hc2 : o2.courier with
      | some cid2 => exact grouping_key_mem env os _ st o cid hmem hc
      | none =>
        cases ha : assign_optimal_courier env st o2 with
        | mk oc rest2 =>
          cases rest2 with
          | mk o1 st1 =>
            cases oc with
            | some c => exact grouping_key_mem env os _ st1 o cid hmem hc
            | none => exact grouping_key_mem env os gs st1 o cid hmem hc

/-- Every bucket member either was already in an equal-key bucket of the
accumulator or descends from a processed order: same id, status and creation
date, with the bucket key being that order's pre-assigned courier or an
assignment made for a courier-less order. -/
theorem grouping_origin (env : Env) : ∀ (os : List Order)
    (gs : List (ℕ × List Order)) (st : DBState) (g : ℕ × List Order)
    (o2 : Order), g ∈ (group_orders_for_routing env os gs st).1 → o2 ∈ g.2 →
    (∃ g0 ∈ gs, g0.1 = g.1 ∧ o2 ∈ g0.2) ∨
    ∃ o0 ∈ os, o2.id = o0.id ∧ o2.status = o0.status ∧
      o2.created_date = o0.created_date ∧
      (o0.courier = some g.1 ∨ o0.courier = none)
  | [], gs, st, g, o2, hg, ho2 => Or.inl ⟨g, hg, rfl, ho2⟩
  | o :: os, gs, st, g, o2, hg, ho2 => by
    simp only [group_orders_for_routing] at hg
    cases hc : o.courier with
    | some cid =>
      rw [hc] at hg
      rcases grouping_origin env os _ st g o2 hg ho2 with
        ⟨g0, hg0, hkey, hmem⟩ | ⟨o0, ho0, hrest⟩
      · rcases insertGroup_mem_inv gs cid o g0 o2 hg0 hmem with
          ⟨g1, hg1, hkey1, hmem1⟩ | ⟨rfl, hkeyg0⟩
        · exact Or.inl ⟨g1, hg1, hkey1.trans hkey, hmem1⟩
        · refine Or.inr ⟨o2, List.mem_cons_self _ _, rfl, rfl, rfl, Or.inl ?_⟩
          rw [hc, ← hkeyg0, hkey]
      · exact Or.inr ⟨o0, List.mem_cons_of_mem _ ho0, hrest⟩
    | none =>
      rw [hc] at hg
      cases ha : assign_optimal_courier env st o with
      | mk oc rest2 =>
        cases rest2 with
        | mk o1 st1 =>
          rw [ha] at hg
          have hfields := assign_order_fields env st o
          rw [ha] at hfields
          cases oc with
          | some c =>
            simp only at hg
            rcases grouping_origin env os _ st1 g o2 hg ho2 with
              ⟨g0, hg0, hkey, hmem⟩ | ⟨o0, ho0, hrest⟩
            · rcases insertGroup_mem_inv gs c.id o1 g0 o2 hg0 hmem with
                ⟨g1, hg1, hkey1, hmem1⟩ | ⟨rfl, _⟩
              · exact Or.inl ⟨g1, hg1, hkey1.trans hkey, hmem1⟩
              · refine Or.inr ⟨o, List.mem_cons_self _ _, hfields.1,
                  hfields.2.1, hfields.2.2.1, Or.inr hc⟩
            · exact Or.inr ⟨o0, List.mem_cons_of_mem _ ho0, hrest⟩
          | none =>
            simp only at hg
            rcases grouping_origin env os gs st1 g o2 hg ho2 with
              h | ⟨o0, ho0, hrest⟩
            · exact Or.inl h
            · exact Or.inr ⟨o0, List.mem_cons_of_mem _ ho0, hrest⟩

/-- An order whose id is shared by no courier-less processed order survives
the grouping phase untouched. -/
theorem grouping_mem_of_ne (env : Env) : ∀ (os : List Order) (gs : List (ℕ × List Order))
    (st : DBState) (o2 : Order), o2 ∈ st.orders →
    (∀ o' ∈ os, o'.courier = none → o'.id ≠ o2.id) →
    o2 ∈ (group_orders_for_routing env os gs st).2.orders
  | [], _, _, _, h, _ => h
  | o :: os, gs, st, o2, h, hids => by
    simp only [group_orders_for_routing]
    cases hc : o.courier with
    | some cid =>
      exact grouping_mem_of_ne env os _ st o2 h
        (fun o' ho' => hids o' (List.mem_cons_of_mem _ ho'))
    | none =>
      cases ha : assign_optimal_courier env st o with
      | mk oc rest2 =>
        cases rest2 with
        | mk o1 st1 =>
          have hmem : o2 ∈ st1.orders := by
            have := assign_mem_of_ne env st o o2 h
              (hids o (List.mem_cons_self _ _) hc)
            rw [ha] at this
            exact this
          cases oc with
          | some c =>
            exact grouping_mem_of_ne env os _ st1 o2 hmem
              (fun o' ho' => hids o' (List.mem_cons_of_mem _ ho'))
          | none =>
            exact grouping_mem_of_ne env os gs st1 o2 hmem
              (fun o' ho' => hids o' (List.mem_cons_of_mem _ ho'))

/-- With a non-empty order list, `create_delivery_route` succeeds. -/
theorem create_delivery_route_isOk (env : RouteEnv) (now : String)
    (courier : Courier) (orders : List Order) (name? : Option String)
    (h : orders ≠ []) :
    ∃ v, create_delivery_route env now courier orders name? = .ok v := by
  have hne : orders.isEmpty = false := by
    simpa [List.isEmpty_iff] using h
  have hcoSome : (optimize_route env courier orders).route_coordinates.isSome := by
    simp [optimize_route, hne]
  obtain ⟨cs, hco⟩ := Option.isSome_iff_exists.mp hcoSome
  cases hcr : create_delivery_route env now courier orders name? with
  | error e =>
    rw [create_delivery_route] at hcr
    simp only [hco] at hcr
    cases hcr
  | ok v => exact ⟨v, rfl⟩

/-- A route record created by `create_delivery_route` carries the courier's
id. -/
theorem create_delivery_route_courier (env : RouteEnv) (now : String)
    (courier : Courier) (orders : List Order) (name? : Option String)
    (route : DeliveryRouteRec) (stops : List RouteOrderRec)
    (h : create_delivery_route env now courier orders name? =
      .ok (route, stops)) :
    route.courier = courier.id := by
  rw [create_delivery_route] at h
  cases hco : (optimize_route env courier orders).route_coordinates with
  | none =>
    rw [hco] at h
    cases h
  | some cs =>
    rw [hco] at h
    simp only [Except.ok.injEq, Prod.mk.injEq] at h
    rw [← h.1]

/-- The per-group update fold does not touch the courier table. -/
theorem updates_couriers (env : Env) (courier : Courier) : ∀ (os : List Order)
    (st : DBState),
    (os.foldl (updateGroupOrder env courier) st).couriers = st.couriers
  | [], _ => rfl
  | o :: os, st => by
    simp only [List.foldl_cons]
    rw [updates_couriers env courier os _]
    rfl

/-- The per-group update fold preserves the stored order-id sequence. -/
theorem updates_ids (env : Env) (courier : Courier) : ∀ (os : List Order)
    (st : DBState),
    (os.foldl (updateGroupOrder env courier) st).orders.map (·.id) =
      st.orders.map (·.id)
  | [], _ => rfl
  | o :: os, st => by
    simp only [List.foldl_cons]
    rw [updates_ids env courier os _]
    exact saveOrder_ids _ _

/-- An order with an id different from every updated order survives the
per-group update fold untouched. -/
theorem updates_mem_of_ne (env : Env) (courier : Courier) : ∀ (os : List Order)
    (st : DBState) (o : Order), o ∈ st.orders →
    (∀ o' ∈ os, o'.id ≠ o.id) →
    o ∈ (os.foldl (updateGroupOrder env courier) st).orders
  | [], _, _, h, _ => h
  | o' :: os, st, o, h, hids => by
    simp only [List.foldl_cons]
    refine updates_mem_of_ne env courier os _ o ?_
      (fun x hx => hids x (List.mem_cons_of_mem _ hx))
    exact saveOrder_mem_of_ne st _ o h (hids o' (List.mem_cons_self _ _) )

/-- After the per-group update fold over a non-empty bucket whose orders all
have the run's date and ids present in the store, the state contains a
re-routable order; and an already re-routable state stays re-routable. -/
theorem updates_establish (env : Env) (courier : Courier) (C : List Courier)
    (date : ℕ) (hcC : courier ∈ C) (hcav : courier.available = true) :
    ∀ (os : List Order) (st : DBState),
    (∀ o' ∈ os, o'.created_date = date ∧ o'.id ∈ st.orders.map (·.id)) →
    (os ≠ [] → reroutable C date (os.foldl (updateGroupOrder env courier) st)) ∧
    (reroutable C date st →
      reroutable C date (os.foldl (updateGroupOrder env courier) st))
  | [], st, _ => ⟨fun h => absurd rfl h, fun h => h⟩
  | o' :: os, st, h => by
    simp only [List.foldl_cons]
    have hdc := h o' (List.mem_cons_self _ _)
    have hupd : reroutable C date (updateGroupOrder env courier st o') := by
      obtain ⟨y, hy, hyid⟩ := List.mem_map.mp hdc.2
      refine ⟨_, saveOrder_mem_self st _ ⟨y, hy, by simpa using hyid⟩,
        rfl, hdc.1, courier, hcC, hcav, rfl⟩
    have hids : ∀ o2 ∈ os, o2.created_date = date ∧
        o2.id ∈ (updateGroupOrder env courier st o').orders.map (·.id) := by
      intro o2 ho2
      have := h o2 (List.mem_cons_of_mem _ ho2)
      refine ⟨this.1, ?_⟩
      have hidseq : (updateGroupOrder env courier st o').orders.map (·.id) =
          st.orders.map (·.id) := saveOrder_ids _ _
      rw [hidseq]
      exact this.2
    have ih := updates_establish env courier C date hcC hcav os
      (updateGroupOrder env courier st o') hids
    exact ⟨fun _ => ih.2 hupd, fun _ => ih.2 hupd⟩

/-- The group-processing loop does not touch the courier table. -/
theorem processGroups_couriers (env : Env) : ∀ (gs : List (ℕ × List Order))
    (routes : List DeliveryRouteRec) (st : DBState) (rs : List DeliveryRouteRec)
    (st' : DBState), processGroups env gs routes st = .ok (rs, st') →
    st'.couriers = st.couriers
  | [], routes, st, rs, st', h => by
    simp only [processGroups, Except.ok.injEq, Prod.mk.injEq] at h
    rw [← h.2]
  | g :: gs, routes, st, rs, st', h => by
    simp only [processGroups] at h
    cases hf : st.couriers.find? (fun c => c.id == g.1 && c.available) with
    | none =>
      simp only [hf] at h
      exact processGroups_couriers env gs routes st rs st' h
    | some courier =>
      simp only [hf] at h
      cases hcr : create_delivery_route env.route env.nowLabel courier g.2
          none with
      | error e =>
        rw [hcr] at h
        cases h
      | ok v =>
        cases v with
        | mk route stops =>
          rw [hcr] at h
          simp only at h
          have := processGroups_couriers env gs (routes ++ [route]) _ rs st' h
          rw [this, updates_couriers]

/-- The group-processing loop only appends routes. -/
theorem processGroups_mono (env : Env) : ∀ (gs : List (ℕ × List Order))
    (routes : List DeliveryRouteRec) (st : DBState)
    (rs : List DeliveryRouteRec) (st' : DBState),
    processGroups env gs routes st = .ok (rs, st') →
    routes.length ≤ rs.length
  | [], routes, st, rs, st', h => by
    simp only [processGroups, Except.ok.injEq, Prod.mk.injEq] at h
    rw [h.1]
  | g :: gs, routes, st, rs, st', h => by
    simp only [processGroups] at h
    cases hf : st.couriers.find? (fun c => c.id == g.1 && c.available) with
    | none =>
      simp only [hf] at h
      exact processGroups_mono env gs routes st rs st' h
    | some courier =>
      simp only [hf] at h
      cases hcr : create_delivery_route env.route env.nowLabel courier g.2
          none with
      | error e =>
        rw [hcr] at h
        cases h
      | ok v =>
        cases v with
        | mk route stops =>
          rw [hcr] at h
          simp only at h
          have := processGroups_mono env gs (routes ++ [route]) _ rs st' h
          simp only [List.length_append, List.length_singleton] at this
          omega

/-- With all buckets non-empty, the group-processing loop succeeds. -/
theorem processGroups_ok (env : Env) : ∀ (gs : List (ℕ × List Order))
    (routes : List DeliveryRouteRec) (st : DBState),
    (∀ g ∈ gs, g.2 ≠ []) →
    ∃ rs st', processGroups env gs routes st = .ok (rs, st')
  | [], routes, st, _ => ⟨routes, st, rfl⟩
  | g :: gs, routes, st, h => by
    simp only [processGroups]
    cases hf : st.couriers.find? (fun c => c.id == g.1 && c.available) with
    | none =>
      exact processGroups_ok env gs routes st
        (fun g2 hg2 => h g2 (List.mem_cons_of_mem _ hg2))
    | some courier =>
      obtain ⟨v, hv⟩ := create_delivery_route_isOk env.route env.nowLabel
        courier g.2 none (h g (List.mem_cons_self _ _))
      cases v with
      | mk route stops =>
        simp only [hv]
        exact processGroups_ok env gs (routes ++ [route]) _
          (fun g2 hg2 => h g2 (List.mem_cons_of_mem _ hg2))

/-- If some group's courier id resolves to an available courier, the loop
appends at least one route. -/
theorem processGroups_route_added (env : Env) : ∀ (gs : List (ℕ × List Order))
    (routes : List DeliveryRouteRec) (st : DBState)
    (rs : List DeliveryRouteRec) (st' : DBState),
    processGroups env gs routes st = .ok (rs, st') →
    (∃ g ∈ gs, (st.couriers.find?
      (fun c => c.id == g.1 && c.available)).isSome) →
    routes.length < rs.length
  | [], routes, st, rs, st', h, hex => by
    obtain ⟨g, hg, _⟩ := hex
    cases hg
  | g :: gs, routes, st, rs, st', h, hex => by
    simp only [processGroups] at h
    cases hf : st.couriers.find? (fun c => c.id == g.1 && c.available) with
    | none =>
      simp only [hf] at h
      obtain ⟨g2, hg2, hg2s⟩ := hex
      rcases List.mem_cons.mp hg2 with rfl | hg2
      · rw [hf] at hg2s
        cases hg2s
      · exact processGroups_route_added env gs routes st rs st' h
          ⟨g2, hg2, hg2s⟩
    | some courier =>
      simp only [hf] at h
      cases hcr : create_delivery_route env.route env.nowLabel courier g.2
          none with
      | error e =>
        rw [hcr] at h
        cases h
      | ok v =>
        cases v with
        | mk route stops =>
          rw [hcr] at h
          simp only at h
          have := processGroups_mono env gs (routes ++ [route]) _ rs st' h
          simp only [List.length_append, List.length_singleton] at this
          omega

/-- Every route the loop appends belongs to an available stored courier. -/
theorem processGroups_routes_avail (env : Env) (C : List Courier) :
    ∀ (gs : List (ℕ × List Order)) (routes : List DeliveryRouteRec)
    (st : DBState) (rs : List DeliveryRouteRec) (st' : DBState),
    processGroups env gs routes st = .ok (rs, st') →
    st.couriers = C →
    (∀ r ∈ routes, ∃ c ∈ C, c.available = true ∧ r.courier = c.id) →
    ∀ r ∈ rs, ∃ c ∈ C, c.available = true ∧ r.courier = c.id
  | [], routes, st, rs, st', h, _, hall => by
    simp only [processGroups, Except.ok.injEq, Prod.mk.injEq] at h
    rw [← h.1]
    exact hall
  | g :: gs, routes, st, rs, st', h, hC, hall => by
    simp only [processGroups] at h
    cases hf : st.couriers.find? (fun c => c.id == g.1 && c.available) with
    | none =>
      simp only [hf] at h
      exact processGroups_routes_avail env C gs routes st rs st' h hC hall
    | some courier =>
      simp only [hf] at h
      cases hcr : create_delivery_route env.route env.nowLabel courier g.2
          none with
      | error e =>
        rw [hcr] at h
        cases h
      | ok v =>
        cases v with
        | mk route stops =>
          rw [hcr] at h
          simp only at h
          have hcmem : courier ∈ C := by
            rw [← hC]
            exact List.mem_of_find?_eq_some hf
          have hcav : courier.available = true := by
            have := List.find?_some hf
            simp only [Bool.and_eq_true, beq_iff_eq] at this
            exact this.2
          refine processGroups_routes_avail env C gs (routes ++ [route]) _
            rs st' h (by rw [updates_couriers]; exact hC) ?_
          intro r hr
          rcases List.mem_append.mp hr with hr | hr
          · exact hall r hr
          · simp only [List.mem_singleton] at hr
            subst hr
            exact ⟨courier, hcmem, hcav,
              create_delivery_route_courier _ _ _ _ _ _ _ hcr⟩

/-- An order untouched by every processed group — because its id occurs in no
bucket whose courier resolves — survives the loop unchanged. -/
theorem processGroups_mem_of_skip (env : Env) (C : List Courier) :
    ∀ (gs : List (ℕ × List Order)) (routes : List DeliveryRouteRec)
    (st : DBState) (rs : List DeliveryRouteRec) (st' : DBState) (o : Order),
    processGroups env gs routes st = .ok (rs, st') →
    st.couriers = C →
    o ∈ st.orders →
    (∀ g ∈ gs, (C.find? (fun c => c.id == g.1 && c.available) = none) ∨
      ∀ o' ∈ g.2, o'.id ≠ o.id) →
    o ∈ st'.orders
  | [], routes, st, rs, st', o, h, _, ho, _ => by
    simp only [processGroups, Except.ok.injEq, Prod.mk.injEq] at h
    rw [← h.2]
    exact ho
  | g :: gs, routes, st, rs, st', o, h, hC, ho, hskip => by
    simp only [processGroups] at h
    cases hf : st.couriers.find? (fun c => c.id == g.1 && c.available) with
    | none =>
      simp only [hf] at h
      exact processGroups_mem_of_skip env C gs routes st rs st' o h hC ho
        (fun g2 hg2 => hskip g2 (List.mem_cons_of_mem _ hg2))
    | some courier =>
      simp only [hf] at h
      cases hcr : create_delivery_route env.route env.nowLabel courier g.2
          none with
      | error e =>
        rw [hcr] at h
        cases h
      | ok v =>
        cases v with
        | mk route stops =>
          rw [hcr] at h
          simp only at h
          have hg := hskip g (List.mem_cons_self _ _)
          rcases hg with hnone | hids
          · rw [hC] at hf
            simp only [hf] at hnone
            cases hnone
          · refine processGroups_mem_of_skip env C gs (routes ++ [route]) _
              rs st' o h (by rw [updates_couriers]; exact hC) ?_
              (fun g2 hg2 => hskip g2 (List.mem_cons_of_mem _ hg2))
            exact updates_mem_of_ne env courier g.2 st o ho hids

/-- After a run of the group-processing loop over buckets of the run's date
with stored ids, the state is re-routable as soon as it was already, or as
soon as the loop appended any route. -/
theorem processGroups_inv (env : Env) (C : List Courier) (date : ℕ) :
    ∀ (gs : List (ℕ × List Order)) (routes : List DeliveryRouteRec)
    (st : DBState) (rs : List DeliveryRouteRec) (st' : DBState),
    processGroups env gs routes st = .ok (rs, st') →
    st.couriers = C →
    (∀ g ∈ gs, ∀ o' ∈ g.2, o'.created_date = date ∧
      o'.id ∈ st.orders.map (·.id)) →
    (reroutable C date st → reroutable C date st') ∧
    (routes.length < rs.length → reroutable C date st')
  | [], routes, st, rs, st', h, _, _ => by
    simp only [processGroups, Except.ok.injEq, Prod.mk.injEq] at h
    refine ⟨by rw [← h.2]; exact id, ?_⟩
    intro hlen
    rw [← h.1] at hlen
    omega
  | g :: gs, routes, st, rs, st', h, hC, hdates => by
    simp only [processGroups] at h
    cases hf : st.couriers.find? (fun c => c.id == g.1 && c.available) with
    | none =>
      simp only [hf] at h
      exact processGroups_inv env C date gs routes st rs st' h hC
        (fun g2 hg2 => hdates g2 (List.mem_cons_of_mem _ hg2))
    | some courier =>
      simp only [hf] at h
      cases hcr : create_delivery_route env.route env.nowLabel courier g.2
          none with
      | error e =>
        rw [hcr] at h
        cases h
      | ok v =>
        cases v with
        | mk route stops =>
          rw [hcr] at h
          simp only at h
          have hgne : g.2 ≠ [] := by
            intro hempty
            rw [hempty] at hcr
            rw [create_delivery_route] at hcr
            cases hcr
          have hcmem : courier ∈ C := by
            rw [← hC]
            exact List.mem_of_find?_eq_some hf
          have hcav : courier.available = true := by
            have := List.find?_some hf
            simp only [Bool.and_eq_true, beq_iff_eq] at this
            exact this.2
          have hest := updates_establish env courier C date hcmem hcav g.2 st
            (fun o' ho' => hdates g (List.mem_cons_self _ _) o' ho')
          have hre : reroutable C date
              (g.2.foldl (updateGroupOrder env courier) st) := hest.1 hgne
          have hdates2 : ∀ g2 ∈ gs, ∀ o' ∈ g2.2, o'.created_date = date ∧
              o'.id ∈ (g.2.foldl (updateGroupOrder env courier)
                st).orders.map (·.id) := by
            intro g2 hg2 o' ho'
            have := hdates g2 (List.mem_cons_of_mem _ hg2) o' ho'
            rw [updates_ids]
            exact this
          have ih := processGroups_inv env C date gs (routes ++ [route]) _
            rs st' h (by rw [updates_couriers]; exact hC) hdates2
          exact ⟨fun _ => ih.1 hre, fun _ => ih.1 hre⟩

/-- C3 (amended): a second run of `create_optimized_routes_for_day` on the
same date is not a no-op.  The first run leaves every routed order in status
`assigned` — still inside the eligible set `{new, assigned}` — attached to an
available courier, so whenever the first run produced any route, the second
run produces at least one route again (re-routing the same orders) rather
than zero. -/
theorem create_optimized_routes_second_run (env : Env) (date : ℕ)
    (state : DBState) (routes1 : List DeliveryRouteRec) (s1 : DBState)
    (h1 : create_optimized_routes_for_day env (some date) state =
      .ok (routes1, s1))
    (hne : routes1 ≠ []) :
    ∃ routes2 s2, create_optimized_routes_for_day env (some date) s1 =
      .ok (routes2, s2) ∧ routes2 ≠ [] := by
  have h1' : processGroups env
      (group_orders_for_routing env (state.orders.filter fun o =>
        (o.status == "new" || o.status == "assigned") &&
          o.created_date == date) [] state).1 []
      (group_orders_for_routing env (state.orders.filter fun o =>
        (o.status == "new" || o.status == "assigned") &&
          o.created_date == date) [] state).2 = .ok (routes1, s1) := by
    simpa only [create_optimized_routes_for_day] using h1
  have hdates1 : ∀ g ∈ (group_orders_for_routing env
      (state.orders.filter fun o =>
        (o.status == "new" || o.status == "assigned") &&
          o.created_date == date) [] state).1, ∀ o' ∈ g.2,
      o'.created_date = date ∧
      o'.id ∈ (group_orders_for_routing env
        (state.orders.filter fun o =>
          (o.status == "new" || o.status == "assigned") &&
            o.created_date == date) [] state).2.orders.map (·.id) := by
    intro g hg o' ho'
    rcases grouping_origin env _ [] state g o' hg ho' with
      ⟨g0, hg0, _⟩ | ⟨o0, ho0, hid, _, hdt, _⟩
    · cases hg0
    · have hfilter := List.mem_filter.mp ho0
      have hdt0 : o0.created_date = date := by
        have h2 := hfilter.2
        simp only [Bool.and_eq_true, beq_iff_eq] at h2
        exact h2.2
      refine ⟨hdt.trans hdt0, ?_⟩
      rw [grouping_ids, hid]
      exact List.mem_map.mpr ⟨o0, hfilter.1, rfl⟩
  have hinv := processGroups_inv env state.couriers date _ [] _ routes1 s1 h1'
    (grouping_couriers env _ [] state) hdates1
  have hre : reroutable state.couriers date s1 := by
    refine hinv.2 ?_
    simpa using List.length_pos.mpr hne
  obtain ⟨x, hx, hxstat, hxdate, c, hcC, hcav, hxcour⟩ := hre
  have hx2 : x ∈ s1.orders.filter fun o =>
      (o.status == "new" || o.status == "assigned") &&
        o.created_date == date := by
    refine List.mem_filter.mpr ⟨hx, ?_⟩
    simp [hxstat, hxdate]
  obtain ⟨g, hg, hgkey, hgx⟩ := grouping_key_mem env _ [] s1 x c.id hx2 hxcour
  have hnonempty := grouping_nonempty env (s1.orders.filter fun o =>
      (o.status == "new" || o.status == "assigned") &&
        o.created_date == date) [] s1
    (fun g2 hg2 => absurd hg2 (List.not_mem_nil g2))
  obtain ⟨rs, st', hps⟩ := processGroups_ok env _ [] _ hnonempty
  have hs1c : s1.couriers = state.couriers := by
    have hpc := processGroups_couriers env _ [] _ routes1 s1 h1'
    rw [hpc, grouping_couriers]
  have hfind : ((group_orders_for_routing env (s1.orders.filter fun o =>
      (o.status == "new" || o.status == "assigned") &&
        o.created_date == date) [] s1).2.couriers.find?
      (fun cc => cc.id == g.1 && cc.available)).isSome := by
    rw [grouping_couriers, hs1c]
    apply List.find?_isSome.mpr
    refine ⟨c, hcC, ?_⟩
    simp [hgkey, hcav]
  have hadded := processGroups_route_added env _ [] _ rs st' hps ⟨g, hg, hfind⟩
  refine ⟨rs, st', ?_, ?_⟩
  · simpa only [create_optimized_routes_for_day] using hps
  · intro hrs
    rw [hrs] at hadded
    simp at hadded

/-- C10: when a grouped order's courier id does not resolve to an available
courier, the whole group is silently skipped — the run still succeeds, no
created route belongs to that courier id, and the order's record (status,
courier assignment, estimated delivery time and all other fields) is left
verbatim in the store. -/
theorem unavailable_courier_group_skipped (env : Env) (date : ℕ)
    (state : DBState) (o : Order) (cid : ℕ)
    (hnodup : (state.orders.map (·.id)).Nodup)
    (ho : o ∈ state.orders)
    (hstat : o.status = "new" ∨ o.status = "assigned")
    (hdate : o.created_date = date)
    (hcour : o.courier = some cid)
    (hun : ∀ c ∈ state.couriers, c.id = cid → c.available = false) :
    ∃ routes s', create_optimized_routes_for_day env (some date) state =
      .ok (routes, s') ∧
      (∀ r ∈ routes, r.courier ≠ cid) ∧
      o ∈ s'.orders ∧
      s'.couriers = state.couriers := by
  have hpend : o ∈ state.orders.filter fun o2 =>
      (o2.status == "new" || o2.status == "assigned") &&
        o2.created_date == date := by
    refine List.mem_filter.mpr ⟨ho, ?_⟩
    rcases hstat with h | h <;> simp [h, hdate]
  have hnonempty := grouping_nonempty env (state.orders.filter fun o2 =>
      (o2.status == "new" || o2.status == "assigned") &&
        o2.created_date == date) [] state
    (fun g2 hg2 => absurd hg2 (List.not_mem_nil g2))
  obtain ⟨rs, st', hps⟩ := processGroups_ok env _ [] _ hnonempty
  have hgc : (group_orders_for_routing env (state.orders.filter fun o2 =>
      (o2.status == "new" || o2.status == "assigned") &&
        o2.created_date == date) [] state).2.couriers = state.couriers :=
    grouping_couriers env _ [] state
  have hfindnone : state.couriers.find?
      (fun c => c.id == cid && c.available) = none := by
    apply List.find?_eq_none.mpr
    intro c hc
    simp only [Bool.and_eq_true, beq_iff_eq, not_and]
    intro hcid
    rw [hun c hc hcid]
    simp
  have hpendnodup : ((state.orders.filter fun o2 =>
      (o2.status == "new" || o2.status == "assigned") &&
        o2.created_date == date).map (·.id)).Nodup := by
    exact List.Nodup.sublist (List.Sublist.map _ (List.filter_sublist _)) hnodup
  have hinj : ∀ o0 ∈ (state.orders.filter fun o2 =>
      (o2.status == "new" || o2.status == "assigned") &&
        o2.created_date == date), o0.id = o.id → o0 = o := by
    intro o0 ho0 hido
    exact List.inj_on_of_nodup_map hpendnodup ho0 hpend hido
  have hskip : ∀ g ∈ (group_orders_for_routing env
      (state.orders.filter fun o2 =>
        (o2.status == "new" || o2.status == "assigned") &&
          o2.created_date == date) [] state).1,
      (state.couriers.find? (fun c => c.id == g.1 && c.available) = none) ∨
      ∀ o' ∈ g.2, o'.id ≠ o.id := by
    intro g hg
    by_cases hkey : g.1 = cid
    · rw [hkey]
      exact Or.inl hfindnone
    · refine Or.inr ?_
      intro o' ho' hido
      rcases grouping_origin env _ [] state g o' hg ho' with
        ⟨g0, hg0, _⟩ | ⟨o0, ho0, hid, _, _, hcour0⟩
      · cases hg0
      · have ho0o : o0 = o := hinj o0 ho0 (by rw [← hid, hido])
        subst ho0o
        rcases hcour0 with h | h
        · rw [hcour] at h
          exact hkey (by injection h with h2; exact h2.symm)
        · rw [hcour] at h
          cases h
  have hmemgr : o ∈ (group_orders_for_routing env
      (state.orders.filter fun o2 =>
        (o2.status == "new" || o2.status == "assigned") &&
          o2.created_date == date) [] state).2.orders := by
    refine grouping_mem_of_ne env _ [] state o ho ?_
    intro o' ho' hcour' hido
    have := hinj o' ho' hido
    rw [this, hcour] at hcour'
    cases hcour'
  refine ⟨rs, st', by simpa only [create_optimized_routes_for_day] using hps,
    ?_, ?_, ?_⟩
  · intro r hr hrcid
    obtain ⟨c, hcmem, hcavail, hrc⟩ := processGroups_routes_avail env
      state.couriers _ [] _ rs st' hps hgc (by intro r2 hr2; cases hr2) r hr
    rw [hrcid] at hrc
    rw [hun c hcmem hrc.symm] at hcavail
    cases hcavail
  · exact processGroups_mem_of_skip env state.couriers _ [] _ rs st' o hps
      hgc hmemgr hskip
  · rw [processGroups_couriers env _ [] _ rs st' hps, hgc]

/-- The straight-line distance of the two coincident fixture waypoints is
zero. -/
theorem locDistance_fixture : locDistance ((50 : ℚ), (30 : ℚ)) ((50 : ℚ), (30 : ℚ)) = 0 :=
  calculate_distance_self _ _

/-- Location list of the `state3` fixture: courier and order coincide. -/
theorem routeLocations_fixture :
    routeLocations courier3 [order3] = [((50 : ℚ), (30 : ℚ)), ((50 : ℚ), (30 : ℚ))] := by
  norm_num [routeLocations, startLocation, stopLocation, courier3, order3,
    client0, pyOr]

/-- The nearest-neighbor tour over one order visits just that order. -/
theorem nnTour_fixture :
    nnTour [((50 : ℚ), (30 : ℚ)), ((50 : ℚ), (30 : ℚ))] 0 (List.range' 1 1) = [1] := rfl

/-- Summary of the two-point fixture route: disabled routing falls back to
the zero straight-line metrics. -/
theorem summary_fixture :
    get_route_summary envDisabled
      [((50 : ℚ), (30 : ℚ)), ((50 : ℚ), (30 : ℚ))] "driving-car" =
      ⟨0, 0, [((50 : ℚ), (30 : ℚ)), ((50 : ℚ), (30 : ℚ))]⟩ := by
  simp only [get_route_summary, envDisabled, calculate_straight_line_summary,
    straight_line_distance, locDistance_fixture]
  norm_num

/-- Optimization of the single fixture order: zero distance, 15 minutes of
service time. -/
theorem optimize_route_fixture :
    optimize_route envDisabled courier3 [order3] =
      { route := [⟨order3, 1, ((50 : ℚ), (30 : ℚ))⟩],
        total_distance := 0, estimated_duration := 15,
        route_coordinates :=
          some [((50 : ℚ), (30 : ℚ)), ((50 : ℚ), (30 : ℚ))] } := by
  have hprof : profile_map courier3.vehicle_type = "driving-car" := rfl
  simp only [optimize_route, List.isEmpty_cons, Bool.false_eq_true, if_false,
    routeLocations_fixture, List.length_cons, List.length_nil, Nat.zero_add,
    nnTour_fixture, hprof]
  rw [show ((0 :: [1]).map fun idx =>
      ([((50 : ℚ), (30 : ℚ)), ((50 : ℚ), (30 : ℚ))]).getD idx (0, 0)) =
      [((50 : ℚ), (30 : ℚ)), ((50 : ℚ), (30 : ℚ))] from rfl, summary_fixture]
  norm_num
  rfl

/-- Route creation for the fixture: the `route3` record and one stop. -/
theorem create_route_fixture :
    create_delivery_route envDisabled "T" courier3 [order3] none =
      .ok (route3, [⟨order3, 1⟩]) := by
  simp only [create_delivery_route, optimize_route_fixture, route3]
  rfl

/-- The delivery-time estimate stored for the fixture order is exactly the
30-minute preparation time (distance zero, traffic and priority factors
cancel on zero). -/
theorem update_fixture :
    updateGroupOrder env3 courier3 state3 order3 = state3run := by
  have hdist : calculate_distance (50 : ℝ) (30 : ℝ) (50 : ℝ) (30 : ℝ) = 0 :=
    calculate_distance_self _ _
  simp only [updateGroupOrder, calculate_delivery_time, env3, timeCtx0,
    courier3, order3, client0, pyOr, saveOrder, state3, state3run, order3est]
  norm_num [final_travel_time, hdist]

/-- First run over the fixture state: one route, estimate written back. -/
theorem run_state3 :
    create_optimized_routes_for_day env3 (some 0) state3 =
      .ok ([route3], state3run) := by
  simp only [create_optimized_routes_for_day]
  have hpend : state3.orders.filter (fun o =>
      (o.status == "new" || o.status == "assigned") && o.created_date == 0) =
      [order3] := rfl
  have hgr : group_orders_for_routing env3 [order3] [] state3 =
      ([(1, [order3])], state3) := rfl
  rw [hpend, hgr]
  simp only [processGroups]
  have hfind : state3.couriers.find? (fun c => c.id == 1 && c.available) =
      some courier3 := rfl
  have henvr : env3.route = envDisabled := rfl
  have henvl : env3.nowLabel = "T" := rfl
  simp only [hfind, henvr, henvl, create_route_fixture, List.foldl_cons,
    List.foldl_nil, update_fixture]
  simp

/-- Location list of the post-run fixture state: unchanged coordinates. -/
theorem routeLocations_fixture2 :
    routeLocations courier3 [order3est] =
      [((50 : ℚ), (30 : ℚ)), ((50 : ℚ), (30 : ℚ))] := by
  norm_num [routeLocations, startLocation, stopLocation, courier3, order3est,
    order3, client0, pyOr]

/-- Optimization of the post-run fixture order: identical metrics. -/
theorem optimize_route_fixture2 :
    optimize_route envDisabled courier3 [order3est] =
      { route := [⟨order3est, 1, ((50 : ℚ), (30 : ℚ))⟩],
        total_distance := 0, estimated_duration := 15,
        route_coordinates :=
          some [((50 : ℚ), (30 : ℚ)), ((50 : ℚ), (30 : ℚ))] } := by
  have hprof : profile_map courier3.vehicle_type = "driving-car" := rfl
  simp only [optimize_route, List.isEmpty_cons, Bool.false_eq_true, if_false,
    routeLocations_fixture2, List.length_cons, List.length_nil, Nat.zero_add,
    nnTour_fixture, hprof]
  rw [show ((0 :: [1]).map fun idx =>
      ([((50 : ℚ), (30 : ℚ)), ((50 : ℚ), (30 : ℚ))]).getD idx (0, 0)) =
      [((50 : ℚ), (30 : ℚ)), ((50 : ℚ), (30 : ℚ))] from rfl, summary_fixture]
  norm_num
  rfl

/-- Route creation for the post-run fixture: the same `route3` record. -/
theorem create_route_fixture2 :
    create_delivery_route envDisabled "T" courier3 [order3est] none =
      .ok (route3, [⟨order3est, 1⟩]) := by
  simp only [create_delivery_route, optimize_route_fixture2, route3]
  rfl

/-- Re-updating the already-estimated fixture order rewrites the same
values: the state is a fixed point. -/
theorem update_fixture2 :
    updateGroupOrder env3 courier3 state3run order3est = state3run := by
  have hdist : calculate_distance (50 : ℝ) (30 : ℝ) (50 : ℝ) (30 : ℝ) = 0 :=
    calculate_distance_self _ _
  simp only [updateGroupOrder, calculate_delivery_time, env3, timeCtx0,
    courier3, order3est, order3, client0, pyOr, saveOrder, state3run]
  norm_num [final_travel_time, hdist]

/-- Second run over the fixture: the same single route again. -/
theorem run_state3run :
    create_optimized_routes_for_day env3 (some 0) state3run =
      .ok ([route3], state3run) := by
  simp only [create_optimized_routes_for_day]
  have hpend : state3run.orders.filter (fun o =>
      (o.status == "new" || o.status == "assigned") && o.created_date == 0) =
      [order3est] := rfl
  have hgr : group_orders_for_routing env3 [order3est] [] state3run =
      ([(1, [order3est])], state3run) := rfl
  rw [hpend, hgr]
  simp only [processGroups]
  have hfind : state3run.couriers.find? (fun c => c.id == 1 && c.available) =
      some courier3 := rfl
  have henvr : env3.route = envDisabled := rfl
  have henvl : env3.nowLabel = "T" := rfl
  simp only [hfind, henvr, henvl, create_route_fixture2, List.foldl_cons,
    List.foldl_nil, update_fixture2]
  simp

/-- Counterexample to C3 as stated: running the optimizer twice on the same
date with no new orders does not produce zero additional routes.  On the
fixture state the first run produces one route and sets the order's status to
`assigned` — still eligible — so the second run produces one route again. -/
theorem second_run_counterexample :
    ((create_optimized_routes_for_day env3 (some 0) state3).bind fun p =>
      (create_optimized_routes_for_day env3 (some 0) p.2).map fun q =>
        (p.1.length, q.1.length)) = .ok (1, 1) := by
  simp only [run_state3, Except.bind, run_state3run, Except.map]
  rfl

/-- Witness for C3 (amended) on the fixture state: the second run yields a
non-empty route list. -/
theorem second_run_witness :
    ∃ routes2 s2, create_optimized_routes_for_day env3 (some 0) state3run =
      .ok (routes2, s2) ∧ routes2 ≠ [] :=
  create_optimized_routes_second_run env3 0 state3 [route3] state3run
    run_state3 (by simp)

/-- Witness for C10: the fixture order pre-assigned to the unavailable
courier 7 is skipped — the run succeeds, creates no route for courier 7, and
leaves the order record untouched. -/
theorem unavailable_courier_group_skipped_witness :
    ∃ routes s', create_optimized_routes_for_day env3 (some 0) state10 =
      .ok (routes, s') ∧
      (∀ r ∈ routes, r.courier ≠ 7) ∧
      order10 ∈ s'.orders ∧
      s'.couriers = state10.couriers := by
  refine unavailable_courier_group_skipped env3 0 state10 order10 7 ?_ ?_ ?_
    ?_ ?_ ?_
  · simp [state10, order10]
  · simp [state10]
  · exact Or.inl rfl
  · rfl
  · rfl
  · intro c hc hcid
    simp only [state10, List.mem_singleton] at hc
    subst hc
    rfl

end CRM
